import Mathlib

/-!
Shallow embedding of the core CP engine of this repository
(trailed integer-domain store, nogood propagator, reified propagator),
together with theorems settling the frozen claims about it.

The definitions follow the Rust sources:
  src/pumpkin-lib/src/engine/cp/assignments.rs
  src/pumpkin-solver/src/propagators/nogood/nogood_propagator.rs
  src/pumpkin-lib/src/propagators/reified_propagator.rs
Components of the repository that are not among the extracted sources
(the Predicate type and its helpers, basic_types::Trail, the event sink,
the LBD helper, the semantic minimiser, the propagation context) are
modelled from the specification; each such definition carries a doc
comment saying so.
-/

set_option linter.unusedVariables false

namespace Pumpkin

/-- Integer predicate, the sole atom the engine reasons about.
Modelled from the spec (section 3): exactly one of x >= k, x <= k, x = k,
x /= k, over a dense integer domain id.  The type itself is declared outside
the extracted sources; its four variants are fixed by the pattern matches in
src/pumpkin-lib/src/engine/cp/assignments.rs. -/
inductive Predicate where
  | lowerBound (domain_id : Nat) (lower_bound : Int)
  | upperBound (domain_id : Nat) (upper_bound : Int)
  | notEqual (domain_id : Nat) (not_equal_constant : Int)
  | equal (domain_id : Nat) (equality_constant : Int)
deriving DecidableEq

def Predicate.get_domain : Predicate → Nat
  | .lowerBound d _ => d
  | .upperBound d _ => d
  | .notEqual d _ => d
  | .equal d _ => d

def Predicate.get_right_hand_side : Predicate → Int
  | .lowerBound _ k => k
  | .upperBound _ k => k
  | .notEqual _ k => k
  | .equal _ k => k

def Predicate.is_lower_bound_predicate : Predicate → Bool
  | .lowerBound _ _ => true
  | _ => false

def Predicate.is_upper_bound_predicate : Predicate → Bool
  | .upperBound _ _ => true
  | _ => false

def Predicate.is_not_equal_predicate : Predicate → Bool
  | .notEqual _ _ => true
  | _ => false

def Predicate.is_equality_predicate : Predicate → Bool
  | .equal _ _ => true
  | _ => false

/-- Modelled from the spec: negation is internal,
not (x >= k) = (x <= k-1), not (x <= k) = (x >= k+1),
not (x = k) = (x /= k), not (x /= k) = (x = k). -/
def Predicate.negate : Predicate → Predicate
  | .lowerBound d k => .upperBound d (k - 1)
  | .upperBound d k => .lowerBound d (k + 1)
  | .notEqual d k => .equal d k
  | .equal d k => .notEqual d k

/-- Modelled from the spec: domain id 0 is a dummy 0-1 variable assigned to 1,
used to express trivially true predicates. -/
def Predicate.trivially_true : Predicate := .equal 0 1

/-- Modelled from the spec: the negation of the trivially true predicate on the
dummy variable. -/
def Predicate.trivially_false : Predicate := .equal 0 0

/-- The four integer domain events. -/
inductive IntDomainEvent where
  | lowerBound
  | upperBound
  | removal
  | assign
deriving DecidableEq

/-- Per-domain bitset over the four event kinds.
Modelled from the spec (section 4.3); the event sink source file is not among
the extracted sources. -/
structure EventBits where
  lb : Bool := false
  ub : Bool := false
  removal : Bool := false
  assign : Bool := false
deriving DecidableEq

def EventBits.any_set (b : EventBits) : Bool :=
  b.lb || b.ub || b.removal || b.assign

def EventBits.set_event (b : EventBits) : IntDomainEvent → EventBits
  | .lowerBound => { b with lb := true }
  | .upperBound => { b with ub := true }
  | .removal => { b with removal := true }
  | .assign => { b with assign := true }

def EventBits.get_event (b : EventBits) : IntDomainEvent → Bool
  | .lowerBound => b.lb
  | .upperBound => b.ub
  | .removal => b.removal
  | .assign => b.assign

/-- Event sink.  Modelled from the spec (section 4.3): a per-domain bitset over
event kinds plus an ordered list of the domains that have any event set;
event_occurred is idempotent, drain yields each pair once and clears. -/
structure EventSink where
  bits : List EventBits
  order : List Nat
deriving DecidableEq

def EventSink.num_domains (s : EventSink) : Nat := s.bits.length

def EventSink.grow (s : EventSink) : EventSink :=
  { s with bits := s.bits ++ [{}] }

def EventSink.event_occurred (s : EventSink) (e : IntDomainEvent) (d : Nat) : EventSink :=
  match s.bits.get? d with
  | none => s
  | some b =>
      { bits := s.bits.set d (b.set_event e),
        order := if b.any_set then s.order else s.order ++ [d] }

def EventBits.to_events (b : EventBits) (d : Nat) : List (IntDomainEvent × Nat) :=
  (if b.lb then [(IntDomainEvent.lowerBound, d)] else [])
    ++ (if b.ub then [(IntDomainEvent.upperBound, d)] else [])
    ++ (if b.removal then [(IntDomainEvent.removal, d)] else [])
    ++ (if b.assign then [(IntDomainEvent.assign, d)] else [])

def EventSink.drain_list (s : EventSink) : List (IntDomainEvent × Nat) :=
  (s.order.map (fun d => (s.bits.getD d {}).to_events d)).flatten

def EventSink.clear (s : EventSink) : EventSink :=
  { bits := s.bits.map (fun _ => {}), order := [] }

/-- Association list standing in for the HashMap of removed values; the source
only inserts a key that is absent and removes a key that is present, so an
association list with append-insert and filter-remove has the same behaviour. -/
def alookup {β : Type} : List (Int × β) → Int → Option β
  | [], _ => none
  | kv :: rest, k => if kv.1 == k then some kv.2 else alookup rest k

structure PairDecisionLevelTrailPosition where
  decision_level : Nat
  trail_position : Nat
deriving DecidableEq

structure BoundUpdateInfo where
  bound : Int
  decision_level : Nat
  trail_position : Nat
deriving DecidableEq

structure HoleUpdateInfo where
  removed_value : Int
  decision_level : Nat
  trail_position : Nat
  triggered_lower_bound_update : Bool
  triggered_upper_bound_update : Bool
deriving DecidableEq

/-- The CP representation of a domain: bounds histories, hole history and the
removed-value map, following struct IntegerDomain in assignments.rs. -/
structure IntegerDomain where
  id : Nat
  lower_bound_updates : List BoundUpdateInfo
  upper_bound_updates : List BoundUpdateInfo
  hole_updates : List HoleUpdateInfo
  holes : List (Int × PairDecisionLevelTrailPosition)
deriving DecidableEq

def IntegerDomain.new (lower_bound upper_bound : Int) (id : Nat) : IntegerDomain :=
  { id
    lower_bound_updates := [⟨lower_bound, 0, 0⟩]
    upper_bound_updates := [⟨upper_bound, 0, 0⟩]
    hole_updates := []
    holes := [] }

/-- Stand-in value for the out-of-range accesses that panic in Rust. -/
def IntegerDomain.dummy : IntegerDomain := IntegerDomain.new 0 0 0

def IntegerDomain.lower_bound (d : IntegerDomain) : Int :=
  match d.lower_bound_updates.getLast? with
  | some u => u.bound
  | none => 0

def IntegerDomain.upper_bound (d : IntegerDomain) : Int :=
  match d.upper_bound_updates.getLast? with
  | some u => u.bound
  | none => 0

def IntegerDomain.initial_lower_bound (d : IntegerDomain) : Int :=
  match d.lower_bound_updates.head? with
  | some u => u.bound
  | none => 0

def IntegerDomain.initial_upper_bound (d : IntegerDomain) : Int :=
  match d.upper_bound_updates.head? with
  | some u => u.bound
  | none => 0

def IntegerDomain.lower_bound_at_trail_position (d : IntegerDomain) (tp : Nat) : Int :=
  match (d.lower_bound_updates.filter (fun u => decide (u.trail_position ≤ tp))).getLast? with
  | some u => u.bound
  | none => 0

def IntegerDomain.upper_bound_at_trail_position (d : IntegerDomain) (tp : Nat) : Int :=
  match (d.upper_bound_updates.filter (fun u => decide (u.trail_position ≤ tp))).getLast? with
  | some u => u.bound
  | none => 0

def IntegerDomain.contains (d : IntegerDomain) (value : Int) : Bool :=
  decide (d.lower_bound ≤ value) && decide (value ≤ d.upper_bound)
    && (alookup d.holes value).isNone

def IntegerDomain.contains_at_trail_position (d : IntegerDomain) (value : Int) (tp : Nat) :
    Bool :=
  if d.lower_bound_at_trail_position tp > value ∨ d.upper_bound_at_trail_position tp < value
  then false
  else
    match alookup d.holes value with
    | some hole_info => if hole_info.trail_position ≤ tp then false else true
    | none => true

/-- The body of the while loop of update_lower_bound_with_respect_to_holes,
written with explicit fuel so that it is structurally recursive; the fuel
(ub + 1 - lb).toNat supplied below can only run out once lb exceeds ub, where
the loop condition is false as well, so the two agree everywhere. -/
def advance_up_go (holes : List (Int × PairDecisionLevelTrailPosition)) (ub : Int) :
    Nat → Int → Int
  | 0, lb => lb
  | fuel + 1, lb =>
      if (alookup holes lb).isSome && decide (lb ≤ ub) then
        advance_up_go holes ub fuel (lb + 1)
      else lb

/-- The while loop of update_lower_bound_with_respect_to_holes: advance the
candidate lower bound upward while it is a hole and does not exceed ub. -/
def advance_past_holes_up (holes : List (Int × PairDecisionLevelTrailPosition)) (ub : Int)
    (lb : Int) : Int :=
  advance_up_go holes ub (ub + 1 - lb).toNat lb

/-- The body of the while loop of update_upper_bound_with_respect_to_holes,
with the same fuel encoding. -/
def advance_down_go (holes : List (Int × PairDecisionLevelTrailPosition)) (lb : Int) :
    Nat → Int → Int
  | 0, ub => ub
  | fuel + 1, ub =>
      if (alookup holes ub).isSome && decide (lb ≤ ub) then
        advance_down_go holes lb fuel (ub - 1)
      else ub

/-- The while loop of update_upper_bound_with_respect_to_holes. -/
def advance_past_holes_down (holes : List (Int × PairDecisionLevelTrailPosition)) (lb : Int)
    (ub : Int) : Int :=
  advance_down_go holes lb (ub + 1 - lb).toNat ub

def IntegerDomain.set_lower_bound (d : IntegerDomain) (new_lower_bound : Int)
    (decision_level trail_position : Nat) (events : EventSink) : IntegerDomain × EventSink :=
  if new_lower_bound ≤ d.lower_bound then (d, events)
  else
    let events := events.event_occurred .lowerBound d.id
    let advanced := advance_past_holes_up d.holes d.upper_bound new_lower_bound
    let d' : IntegerDomain :=
      { d with lower_bound_updates :=
          d.lower_bound_updates ++ [⟨advanced, decision_level, trail_position⟩] }
    let events :=
      if d'.lower_bound == d'.upper_bound then events.event_occurred .assign d.id else events
    (d', events)

def IntegerDomain.set_upper_bound (d : IntegerDomain) (new_upper_bound : Int)
    (decision_level trail_position : Nat) (events : EventSink) : IntegerDomain × EventSink :=
  if new_upper_bound ≥ d.upper_bound then (d, events)
  else
    let events := events.event_occurred .upperBound d.id
    let advanced := advance_past_holes_down d.holes d.lower_bound new_upper_bound
    let d' : IntegerDomain :=
      { d with upper_bound_updates :=
          d.upper_bound_updates ++ [⟨advanced, decision_level, trail_position⟩] }
    let events :=
      if d'.lower_bound == d'.upper_bound then events.event_occurred .assign d.id else events
    (d', events)

/-- remove_value from assignments.rs.  The source pushes the hole update with
false flags and flips each flag right after the corresponding triggered bound
update; since the trigger tests only read the bound histories, which the hole
insertion does not touch, the flags are computed up front here, producing the
same final state in the same event order. -/
def IntegerDomain.remove_value (d : IntegerDomain) (removed_value : Int)
    (decision_level trail_position : Nat) (events : EventSink) : IntegerDomain × EventSink :=
  if removed_value < d.lower_bound ∨ d.upper_bound < removed_value
      ∨ (alookup d.holes removed_value).isSome then (d, events)
  else
    let events := events.event_occurred .removal d.id
    let tlb := d.lower_bound == removed_value
    let tub := d.upper_bound == removed_value
    let d1 : IntegerDomain :=
      { d with
        hole_updates := d.hole_updates
          ++ [⟨removed_value, decision_level, trail_position, tlb, tub⟩],
        holes := d.holes ++ [(removed_value, ⟨decision_level, trail_position⟩)] }
    let step2 :=
      if tlb then d1.set_lower_bound (removed_value + 1) decision_level trail_position events
      else (d1, events)
    let step3 :=
      if tub then
        step2.1.set_upper_bound (removed_value - 1) decision_level trail_position step2.2
      else step2
    let events :=
      if step3.1.lower_bound == step3.1.upper_bound then
        step3.2.event_occurred .assign d.id
      else step3.2
    (step3.1, events)

/-- Result of a domain-changing operation: Ok or the EmptyDomain error. -/
inductive PostResult where
  | ok
  | emptyDomain
deriving DecidableEq

def IntegerDomain.verify_consistency (d : IntegerDomain) : PostResult :=
  if d.lower_bound > d.upper_bound then .emptyDomain else .ok

def IntegerDomain.get_update_info_lower (d : IntegerDomain) (lower_bound : Int) :
    Option PairDecisionLevelTrailPosition :=
  (d.lower_bound_updates.find? (fun u => decide (u.bound ≥ lower_bound))).map
    (fun u => ⟨u.decision_level, u.trail_position⟩)

def IntegerDomain.get_update_info_upper (d : IntegerDomain) (upper_bound : Int) :
    Option PairDecisionLevelTrailPosition :=
  (d.upper_bound_updates.find? (fun u => decide (u.bound ≤ upper_bound))).map
    (fun u => ⟨u.decision_level, u.trail_position⟩)

/-- get_update_info from assignments.rs; the recursive calls of the source on
bound predicates are expressed through the two helper functions above. -/
def IntegerDomain.get_update_info (d : IntegerDomain) (p : Predicate) :
    Option PairDecisionLevelTrailPosition :=
  match p with
  | .lowerBound _ k => d.get_update_info_lower k
  | .upperBound _ k => d.get_update_info_upper k
  | .notEqual _ k =>
      match alookup d.holes k with
      | some hole_info => some hole_info
      | none =>
          match d.get_update_info_lower (k + 1) with
          | some pr => some pr
          | none => d.get_update_info_upper (k - 1)
  | .equal _ k =>
      match d.get_update_info_lower k with
      | some lb_pos =>
          (d.get_update_info_upper k).map (fun ub_pos =>
            if lb_pos.trail_position > ub_pos.trail_position then lb_pos else ub_pos)
      | none => none

/-- Reason for a propagation: an eager conjunction of predicates or a lazy
code resolved by the originating propagator.  Modelled from the spec
(section 3); the source stores a reference into a reason store, which is not
among the extracted sources, so the reason value is kept inline. -/
inductive Reason where
  | eager (predicates : List Predicate)
  | dynamicLazy (code : Nat)
deriving DecidableEq

structure ConstraintProgrammingTrailEntry where
  predicate : Predicate
  old_lower_bound : Int
  old_upper_bound : Int
  reason : Option Reason
deriving DecidableEq

/-- Chronological trail with decision-level boundary indices.  Modelled from
the spec (section 3); basic_types::Trail is not among the extracted sources.
boundaries.get i is the number of entries present when level i + 1 began, and
the current decision level is boundaries.length. -/
structure Trail where
  entries : List ConstraintProgrammingTrailEntry
  boundaries : List Nat
deriving DecidableEq

structure Assignments where
  trail : Trail
  domains : List IntegerDomain
  events : EventSink
deriving DecidableEq

def Assignments.num_domains (a : Assignments) : Nat := a.domains.length

def Assignments.get_decision_level (a : Assignments) : Nat := a.trail.boundaries.length

def Assignments.increase_decision_level (a : Assignments) : Assignments :=
  { a with trail := { a.trail with boundaries := a.trail.boundaries ++ [a.trail.entries.length] } }

def Assignments.grow (a : Assignments) (lower_bound upper_bound : Int) : Assignments × Nat :=
  ({ a with
      domains := a.domains ++ [IntegerDomain.new lower_bound upper_bound a.domains.length],
      events := a.events.grow },
    a.domains.length)

def Assignments.empty : Assignments :=
  { trail := ⟨[], []⟩, domains := [], events := ⟨[], []⟩ }

/-- Default constructor of Assignments: allocates the dummy domain 0 assigned
to one, as in the Default impl in assignments.rs. -/
def Assignments.mk_default : Assignments := (Assignments.empty.grow 1 1).1

/-- A freshly constructed store with the given list of initial bounds grown
after the dummy variable. -/
def Assignments.construct (bounds : List (Int × Int)) : Assignments :=
  bounds.foldl (fun a b => (a.grow b.1 b.2).1) Assignments.mk_default

def Assignments.get_lower_bound (a : Assignments) (domain_id : Nat) : Int :=
  (a.domains.getD domain_id .dummy).lower_bound

def Assignments.get_upper_bound (a : Assignments) (domain_id : Nat) : Int :=
  (a.domains.getD domain_id .dummy).upper_bound

def Assignments.get_lower_bound_at_trail_position (a : Assignments) (domain_id : Nat)
    (tp : Nat) : Int :=
  (a.domains.getD domain_id .dummy).lower_bound_at_trail_position tp

def Assignments.get_upper_bound_at_trail_position (a : Assignments) (domain_id : Nat)
    (tp : Nat) : Int :=
  (a.domains.getD domain_id .dummy).upper_bound_at_trail_position tp

def Assignments.is_value_in_domain (a : Assignments) (domain_id : Nat) (value : Int) : Bool :=
  (a.domains.getD domain_id .dummy).contains value

def Assignments.is_domain_assigned (a : Assignments) (domain_id : Nat) : Bool :=
  a.get_lower_bound domain_id == a.get_upper_bound domain_id

def Assignments.get_assigned_value (a : Assignments) (domain_id : Nat) : Option Int :=
  if a.is_domain_assigned domain_id then some (a.get_lower_bound domain_id) else none

def Assignments.get_decision_level_for_predicate (a : Assignments) (p : Predicate) :
    Option Nat :=
  ((a.domains.getD p.get_domain .dummy).get_update_info p).map (·.decision_level)

def Assignments.tighten_lower_bound (a : Assignments) (domain_id : Nat)
    (new_lower_bound : Int) (reason : Option Reason) : Assignments × PostResult :=
  if new_lower_bound ≤ a.get_lower_bound domain_id then
    (a, (a.domains.getD domain_id .dummy).verify_consistency)
  else
    let predicate := Predicate.lowerBound domain_id new_lower_bound
    let old_lower_bound := a.get_lower_bound domain_id
    let old_upper_bound := a.get_upper_bound domain_id
    let trail_position := a.trail.entries.length
    let a1 : Assignments :=
      { a with trail := { a.trail with entries :=
          a.trail.entries ++ [⟨predicate, old_lower_bound, old_upper_bound, reason⟩] } }
    let du := (a1.domains.getD domain_id .dummy).set_lower_bound new_lower_bound
      a1.get_decision_level trail_position a1.events
    ({ a1 with domains := a1.domains.set domain_id du.1, events := du.2 },
      du.1.verify_consistency)

def Assignments.tighten_upper_bound (a : Assignments) (domain_id : Nat)
    (new_upper_bound : Int) (reason : Option Reason) : Assignments × PostResult :=
  if new_upper_bound ≥ a.get_upper_bound domain_id then
    (a, (a.domains.getD domain_id .dummy).verify_consistency)
  else
    let predicate := Predicate.upperBound domain_id new_upper_bound
    let old_lower_bound := a.get_lower_bound domain_id
    let old_upper_bound := a.get_upper_bound domain_id
    let trail_position := a.trail.entries.length
    let a1 : Assignments :=
      { a with trail := { a.trail with entries :=
          a.trail.entries ++ [⟨predicate, old_lower_bound, old_upper_bound, reason⟩] } }
    let du := (a1.domains.getD domain_id .dummy).set_upper_bound new_upper_bound
      a1.get_decision_level trail_position a1.events
    ({ a1 with domains := a1.domains.set domain_id du.1, events := du.2 },
      du.1.verify_consistency)

def Assignments.remove_value_from_domain (a : Assignments) (domain_id : Nat)
    (removed_value_from_domain : Int) (reason : Option Reason) : Assignments × PostResult :=
  if !((a.domains.getD domain_id .dummy).contains removed_value_from_domain) then
    (a, (a.domains.getD domain_id .dummy).verify_consistency)
  else
    let predicate := Predicate.notEqual domain_id removed_value_from_domain
    let old_lower_bound := a.get_lower_bound domain_id
    let old_upper_bound := a.get_upper_bound domain_id
    let trail_position := a.trail.entries.length
    let a1 : Assignments :=
      { a with trail := { a.trail with entries :=
          a.trail.entries ++ [⟨predicate, old_lower_bound, old_upper_bound, reason⟩] } }
    let du := (a1.domains.getD domain_id .dummy).remove_value removed_value_from_domain
      a1.get_decision_level trail_position a1.events
    ({ a1 with domains := a1.domains.set domain_id du.1, events := du.2 },
      du.1.verify_consistency)

def Assignments.make_assignment (a : Assignments) (domain_id : Nat) (assigned_value : Int)
    (reason : Option Reason) : Assignments × PostResult :=
  let step1 :=
    if a.get_lower_bound domain_id < assigned_value then
      a.tighten_lower_bound domain_id assigned_value reason
    else (a, .ok)
  match step1.2 with
  | .emptyDomain => (step1.1, .emptyDomain)
  | .ok =>
      let step2 :=
        if step1.1.get_upper_bound domain_id > assigned_value then
          step1.1.tighten_upper_bound domain_id assigned_value reason
        else (step1.1, .ok)
      match step2.2 with
      | .emptyDomain => (step2.1, .emptyDomain)
      | .ok => (step2.1, (step2.1.domains.getD domain_id .dummy).verify_consistency)

def Assignments.post_predicate (a : Assignments) (predicate : Predicate)
    (reason : Option Reason) : Assignments × PostResult :=
  match predicate with
  | .lowerBound domain_id lower_bound => a.tighten_lower_bound domain_id lower_bound reason
  | .upperBound domain_id upper_bound => a.tighten_upper_bound domain_id upper_bound reason
  | .notEqual domain_id not_equal_constant =>
      a.remove_value_from_domain domain_id not_equal_constant reason
  | .equal domain_id equality_constant => a.make_assignment domain_id equality_constant reason

def Assignments.evaluate_predicate (a : Assignments) (predicate : Predicate) : Option Bool :=
  match predicate with
  | .lowerBound domain_id lower_bound =>
      if a.get_lower_bound domain_id ≥ lower_bound then some true
      else if a.get_upper_bound domain_id < lower_bound then some false
      else none
  | .upperBound domain_id upper_bound =>
      if a.get_upper_bound domain_id ≤ upper_bound then some true
      else if a.get_lower_bound domain_id > upper_bound then some false
      else none
  | .notEqual domain_id not_equal_constant =>
      if !(a.is_value_in_domain domain_id not_equal_constant) then some true
      else if (a.get_assigned_value domain_id).isSome then some false
      else none
  | .equal domain_id equality_constant =>
      if !(a.is_value_in_domain domain_id equality_constant) then some false
      else if (a.get_assigned_value domain_id).isSome then some true
      else none

def Assignments.is_predicate_satisfied (a : Assignments) (p : Predicate) : Bool :=
  a.evaluate_predicate p == some true

def Assignments.is_predicate_falsified (a : Assignments) (p : Predicate) : Bool :=
  a.evaluate_predicate p == some false

def IntegerDomain.undo_trail_entry (d : IntegerDomain)
    (entry : ConstraintProgrammingTrailEntry) : IntegerDomain :=
  match entry.predicate with
  | .lowerBound _ _ => { d with lower_bound_updates := d.lower_bound_updates.dropLast }
  | .upperBound _ _ => { d with upper_bound_updates := d.upper_bound_updates.dropLast }
  | .notEqual _ not_equal_constant =>
      match d.hole_updates.getLast? with
      | none => d
      | some hole_update =>
          let d1 : IntegerDomain :=
            { d with
              hole_updates := d.hole_updates.dropLast,
              holes := d.holes.filter (fun kv => !(kv.1 == not_equal_constant)) }
          let d2 : IntegerDomain :=
            if hole_update.triggered_lower_bound_update then
              { d1 with lower_bound_updates := d1.lower_bound_updates.dropLast }
            else d1
          if hole_update.triggered_upper_bound_update then
            { d2 with upper_bound_updates := d2.upper_bound_updates.dropLast }
          else d2
  | .equal _ _ => d

def Assignments.undo_one (entry : ConstraintProgrammingTrailEntry)
    (domains : List IntegerDomain) : List IntegerDomain :=
  domains.set entry.predicate.get_domain
    ((domains.getD entry.predicate.get_domain .dummy).undo_trail_entry entry)

/-- The body of the for_each in synchronise: undo one entry and record the
variable if it turns from fixed to unfixed. -/
def synchronise_step (acc : List IntegerDomain × List (Nat × Int))
    (entry : ConstraintProgrammingTrailEntry) : List IntegerDomain × List (Nat × Int) :=
  let domain_id := entry.predicate.get_domain
  let d := acc.1.getD domain_id .dummy
  let fixed_before := d.lower_bound == d.upper_bound
  let value_before := d.lower_bound
  let domains' := Assignments.undo_one entry acc.1
  let d' := domains'.getD domain_id .dummy
  if fixed_before && !(d'.lower_bound == d'.upper_bound) then
    (domains', acc.2 ++ [(domain_id, value_before)])
  else (domains', acc.2)

/-- synchronise from assignments.rs: drop the trail entries above the boundary
of the new decision level, undoing each newest-first, collect the variables
that turn from fixed to unfixed, and fully drain the event sink. -/
def Assignments.synchronise (a : Assignments) (new_decision_level : Nat) :
    Assignments × List (Nat × Int) :=
  let boundary := a.trail.boundaries.getD new_decision_level a.trail.entries.length
  let kept := a.trail.entries.take boundary
  let popped := (a.trail.entries.drop boundary).reverse
  let final := popped.foldl synchronise_step (a.domains, [])
  ({ trail := ⟨kept, a.trail.boundaries.take new_decision_level⟩,
     domains := final.1,
     events := a.events.clear },
    final.2)

/-- Result of asking the engine to add a constraint. -/
inductive ConstraintOperationError where
  | infeasibleNogood
  | infeasibleState
deriving DecidableEq

inductive EnqueueDecision where
  | enqueue
  | skip
deriving DecidableEq

/-- Inconsistency surfaced by a propagator: an empty domain, or an explicit
conflict conjunction (ConflictInfo::Explanation). -/
inductive Inconsistency where
  | emptyDomain
  | conflict (conjunction : List Predicate)
deriving DecidableEq

/-- A stored nogood with its management metadata, following struct Nogood in
nogood_propagator.rs.  The activity is an f32 in the source; it is modelled as
a rational here (no claim concerns the rounding of activities). -/
structure Nogood where
  predicates : List Predicate := []
  is_learned : Bool := false
  lbd : Nat := 0
  is_protected : Bool := false
  is_deleted : Bool := false
  block_bumps : Bool := false
  activity : Rat := 0
deriving DecidableEq

def Nogood.new_learned_nogood (predicates : List Predicate) (lbd : Nat) : Nogood :=
  { predicates, is_learned := true, lbd }

def Nogood.new_permanent_nogood (predicates : List Predicate) : Nogood :=
  { predicates }

structure NogoodWatcher where
  right_hand_side : Int
  nogood_id : Nat
deriving DecidableEq

structure NogoodWatchList where
  lower_bound : List NogoodWatcher := []
  upper_bound : List NogoodWatcher := []
  hole : List NogoodWatcher := []
  equals : List NogoodWatcher := []
deriving DecidableEq

structure LearnedNogoodIds where
  low_lbd : List Nat := []
  high_lbd : List Nat := []
deriving DecidableEq

inductive LearnedNogoodSortingStrategy where
  | activity
  | lbd
deriving DecidableEq

structure LearningOptions where
  max_activity : Rat := 10 ^ 20
  activity_decay_factor : Rat := 99 / 100
  limit_num_high_lbd_nogoods : Nat := 4000
  lbd_threshold : Nat := 5
  nogood_sorting_strategy : LearnedNogoodSortingStrategy := .lbd
deriving DecidableEq

structure NogoodPropagator where
  nogoods : List Nogood := []
  permanent_nogoods : List Nat := []
  learned_nogood_ids : LearnedNogoodIds := {}
  delete_ids : List Nat := []
  last_index_on_trail : Nat := 0
  is_in_infeasible_state : Bool := false
  watch_lists : List NogoodWatchList := []
  enqueued_updates : EventSink := ⟨[], []⟩
  activity_bump_increment : Rat := 1
  parameters : LearningOptions := {}
  bumped_nogoods : List Nat := []
deriving DecidableEq

/-- Modelled from the spec (glossary): LBD is the number of distinct decision
levels among a nogood's predicates; the Lbd helper is not among the extracted
sources.  Decision levels are read from the assignments through
get_update_info; a predicate without an update record counts as level 0. -/
def compute_lbd (predicates : List Predicate) (a : Assignments) : Nat :=
  ((predicates.map (fun p => (a.get_decision_level_for_predicate p).getD 0)).dedup).length

def push_watcher (watch_lists : List NogoodWatchList) (predicate : Predicate)
    (nogood_id : Nat) : List NogoodWatchList :=
  match watch_lists.get? predicate.get_domain with
  | none => watch_lists
  | some wl =>
      let w : NogoodWatcher := ⟨predicate.get_right_hand_side, nogood_id⟩
      let wl' : NogoodWatchList :=
        match predicate with
        | .lowerBound _ _ => { wl with lower_bound := wl.lower_bound ++ [w] }
        | .upperBound _ _ => { wl with upper_bound := wl.upper_bound ++ [w] }
        | .notEqual _ _ => { wl with hole := wl.hole ++ [w] }
        | .equal _ _ => { wl with equals := wl.equals ++ [w] }
      watch_lists.set predicate.get_domain wl'

def NogoodPropagator.add_watcher (np : NogoodPropagator) (predicate : Predicate)
    (nogood_id : Nat) : NogoodPropagator :=
  let np :=
    if np.watch_lists.length ≤ predicate.get_domain then
      { np with watch_lists := np.watch_lists
          ++ List.replicate (predicate.get_domain + 1 - np.watch_lists.length) {} }
    else np
  { np with watch_lists := push_watcher np.watch_lists predicate nogood_id }

/-- The is_watching closure of debug_is_properly_watched. -/
def NogoodPropagator.is_watching (np : NogoodPropagator) (predicate : Predicate)
    (nogood_id : Nat) : Bool :=
  let wl := np.watch_lists.getD predicate.get_domain {}
  let l :=
    match predicate with
    | .lowerBound _ _ => wl.lower_bound
    | .upperBound _ _ => wl.upper_bound
    | .notEqual _ _ => wl.hole
    | .equal _ _ => wl.equals
  l.any (fun w =>
    w.right_hand_side == predicate.get_right_hand_side && w.nogood_id == nogood_id)

/-- debug_is_properly_watched: every stored nogood has its first two predicates
watched.  (The source indexes predicates 0 and 1 unconditionally; stored
nogoods always have length at least two.) -/
def NogoodPropagator.debug_is_properly_watched (np : NogoodPropagator) : Bool :=
  (List.range np.nogoods.length).all (fun i =>
    let ng := np.nogoods.getD i {}
    np.is_watching (ng.predicates.getD 0 .trivially_true) i
      && np.is_watching (ng.predicates.getD 1 .trivially_true) i)

/-- preprocess_nogood.  The semantic minimiser lives outside the extracted
sources; it is taken as a function parameter here, so every statement about
this definition is quantified over its behaviour. -/
def preprocess_nogood (minimise : List Predicate → List Predicate) (a : Assignments)
    (nogood : List Predicate) : List Predicate :=
  let ng := minimise nogood
  if ng.isEmpty || ng.any (fun p => a.is_predicate_falsified p) then
    [Predicate.trivially_false]
  else
    let ng := ng.filter (fun p => !(a.is_predicate_satisfied p))
    if ng.isEmpty then [Predicate.trivially_true] else ng

/-- Helper capturing the shared store-into-the-database step: reuse the last
deleted id when available, push a fresh one otherwise. -/
def store_nogood (nogoods : List Nogood) (delete_ids : List Nat) (n : Nogood) :
    List Nogood × List Nat × Nat :=
  match delete_ids.getLast? with
  | some reused_id => (nogoods.set reused_id n, delete_ids.dropLast, reused_id)
  | none => (nogoods ++ [n], delete_ids, nogoods.length)

def NogoodPropagator.add_permanent_nogood (np : NogoodPropagator)
    (minimise : List Predicate → List Predicate) (a : Assignments)
    (nogood : List Predicate) :
    NogoodPropagator × Assignments × Option ConstraintOperationError :=
  if np.is_in_infeasible_state then (np, a, some .infeasibleState)
  else if nogood.isEmpty then (np, a, none)
  else
    let ng := preprocess_nogood minimise a nogood
    if ng.length == 1 then
      let p := ng.getD 0 .trivially_true
      if a.is_predicate_satisfied p then
        ({ np with is_in_infeasible_state := true }, a, some .infeasibleNogood)
      else if a.is_predicate_falsified p then (np, a, none)
      else
        let post := a.post_predicate p.negate (some (.eager []))
        match post.2 with
        | .ok => (np, post.1, none)
        | .emptyDomain =>
            ({ np with is_in_infeasible_state := true }, post.1, some .infeasibleNogood)
    else
      let stored := store_nogood np.nogoods np.delete_ids (Nogood.new_permanent_nogood ng)
      let new_id := stored.2.2
      let np := { np with
        nogoods := stored.1,
        delete_ids := stored.2.1,
        permanent_nogoods := np.permanent_nogoods ++ [new_id] }
      let np := np.add_watcher ((np.nogoods.getD new_id {}).predicates.getD 0 .trivially_true)
        new_id
      let np := np.add_watcher ((np.nogoods.getD new_id {}).predicates.getD 1 .trivially_true)
        new_id
      (np, a, none)

def NogoodPropagator.add_nogood (np : NogoodPropagator)
    (minimise : List Predicate → List Predicate) (a : Assignments)
    (nogood : List Predicate) :
    NogoodPropagator × Assignments × Option ConstraintOperationError :=
  let r := np.add_permanent_nogood minimise a nogood
  match r.2.2 with
  | none => r
  | some e => ({ r.1 with is_in_infeasible_state := true }, r.2.1, some e)

def NogoodPropagator.add_asserting_nogood (np : NogoodPropagator)
    (minimise : List Predicate → List Predicate) (a : Assignments)
    (nogood : List Predicate) : NogoodPropagator × Assignments :=
  if nogood.length == 1 then
    let r := np.add_permanent_nogood minimise a nogood
    (r.1, r.2.1)
  else
    let lbd := compute_lbd (nogood.drop 1) a
    let stored := store_nogood np.nogoods np.delete_ids (Nogood.new_learned_nogood nogood lbd)
    let new_id := stored.2.2
    let np := { np with nogoods := stored.1, delete_ids := stored.2.1 }
    let np := np.add_watcher ((np.nogoods.getD new_id {}).predicates.getD 0 .trivially_true)
      new_id
    let np := np.add_watcher ((np.nogoods.getD new_id {}).predicates.getD 1 .trivially_true)
      new_id
    let post := a.post_predicate
      ((np.nogoods.getD new_id {}).predicates.getD 0 .trivially_true).negate
      (some (.dynamicLazy new_id))
    let np :=
      if lbd ≤ np.parameters.lbd_threshold then
        { np with learned_nogood_ids :=
            { np.learned_nogood_ids with low_lbd := np.learned_nogood_ids.low_lbd ++ [new_id] } }
      else
        { np with learned_nogood_ids :=
            { np.learned_nogood_ids with high_lbd := np.learned_nogood_ids.high_lbd ++ [new_id] } }
    (np, post.1)

/-- The while loop of notify growing the sink until the local id is covered. -/
def EventSink.grow_to (s : EventSink) (n : Nat) : EventSink :=
  { s with bits := s.bits ++ List.replicate (n - s.bits.length) {} }

def NogoodPropagator.notify (np : NogoodPropagator) (local_id : Nat)
    (event : IntDomainEvent) : NogoodPropagator × EnqueueDecision :=
  let sink := np.enqueued_updates.grow_to (local_id + 1)
  let sink := sink.event_occurred event local_id
  let sink :=
    match event with
    | .lowerBound | .upperBound => sink.event_occurred .removal local_id
    | _ => sink
  ({ np with enqueued_updates := sink }, .enqueue)

/-- The has_been_updated helper inside propagate_or_find_new_watcher,
reproduced exactly; note that the third Removal condition compares the
right-hand side against new_lower_bound on both sides, as the source does. -/
def has_been_updated (domain_event : IntDomainEvent) (right_hand_side : Int)
    (a : Assignments) (updated_domain_id : Nat) (last_index_on_trail : Nat) : Bool :=
  match domain_event with
  | .assign => right_hand_side == a.get_lower_bound updated_domain_id
  | .lowerBound =>
      let old_lower_bound :=
        a.get_lower_bound_at_trail_position updated_domain_id last_index_on_trail
      let new_lower_bound := a.get_lower_bound updated_domain_id
      decide (old_lower_bound < right_hand_side) && decide (right_hand_side ≤ new_lower_bound)
  | .upperBound =>
      let old_upper_bound :=
        a.get_upper_bound_at_trail_position updated_domain_id last_index_on_trail
      let new_upper_bound := a.get_upper_bound updated_domain_id
      decide (old_upper_bound > right_hand_side) && decide (right_hand_side ≥ new_upper_bound)
  | .removal =>
      let old_lower_bound :=
        a.get_lower_bound_at_trail_position updated_domain_id last_index_on_trail
      let new_lower_bound := a.get_lower_bound updated_domain_id
      let old_upper_bound :=
        a.get_upper_bound_at_trail_position updated_domain_id last_index_on_trail
      let new_upper_bound := a.get_upper_bound updated_domain_id
      let value_removed_by_upper_bound_change :=
        decide (old_upper_bound ≥ right_hand_side) && decide (right_hand_side > new_upper_bound)
      let value_removed_by_lower_bound_change :=
        decide (old_lower_bound ≤ right_hand_side) && decide (right_hand_side < new_lower_bound)
      let value_explicitly_removed :=
        decide (new_lower_bound < right_hand_side) && decide (right_hand_side < new_lower_bound)
          && a.is_predicate_satisfied (.notEqual updated_domain_id right_hand_side)
      value_removed_by_upper_bound_change || value_removed_by_lower_bound_change
        || value_explicitly_removed

def get_watch_list (watch_lists : List NogoodWatchList) (domain_id : Nat)
    (domain_event : IntDomainEvent) : List NogoodWatcher :=
  let wl := watch_lists.getD domain_id {}
  match domain_event with
  | .assign => wl.equals
  | .lowerBound => wl.lower_bound
  | .upperBound => wl.upper_bound
  | .removal => wl.hole

def set_watch_list (watch_lists : List NogoodWatchList) (domain_id : Nat)
    (domain_event : IntDomainEvent) (l : List NogoodWatcher) : List NogoodWatchList :=
  match watch_lists.get? domain_id with
  | none => watch_lists
  | some wl =>
      let wl' : NogoodWatchList :=
        match domain_event with
        | .assign => { wl with equals := l }
        | .lowerBound => { wl with lower_bound := l }
        | .upperBound => { wl with upper_bound := l }
        | .removal => { wl with hole := l }
      watch_lists.set domain_id wl'

/-- The is_watched_predicate closure inside propagate_or_find_new_watcher. -/
def is_watched_predicate (p : Predicate) (domain_event : IntDomainEvent)
    (right_hand_side : Int) (a : Assignments) (updated_domain_id : Nat) : Bool :=
  let is_matching_predicate :=
    match domain_event with
    | .assign =>
        p.is_equality_predicate && right_hand_side == a.get_lower_bound updated_domain_id
    | .lowerBound => p.is_lower_bound_predicate
    | .upperBound => p.is_upper_bound_predicate
    | .removal => p.is_not_equal_predicate && p.get_right_hand_side == right_hand_side
  is_matching_predicate && p.get_domain == updated_domain_id

def list_swap {α : Type} (l : List α) (i j : Nat) : List α :=
  match l.get? i, l.get? j with
  | some x, some y => (l.set i y).set j x
  | _, _ => l

def set_nogood_predicates (nogoods : List Nogood) (i : Nat) (ps : List Predicate) :
    List Nogood :=
  match nogoods.get? i with
  | some n => nogoods.set i { n with predicates := ps }
  | none => nogoods

/-- add_new_nogood_watcher: push the watcher for the replacement predicate,
except in the hole special case (a not-equal replacement on the very domain
updated by a Removal event), where the existing watcher slot is kept and its
right-hand side is returned for in-place update. -/
def add_new_nogood_watcher (watch_lists : List NogoodWatchList) (predicate : Predicate)
    (nogood_id : Nat) (domain_event : IntDomainEvent) (updated_domain_id : Nat) :
    List NogoodWatchList × Option Int :=
  match predicate with
  | .notEqual d k =>
      match domain_event with
      | .removal =>
          if d ≠ updated_domain_id then
            (push_watcher watch_lists predicate nogood_id, none)
          else (watch_lists, some k)
      | _ => (push_watcher watch_lists predicate nogood_id, none)
  | _ => (push_watcher watch_lists predicate nogood_id, none)

structure PofnwResult where
  nogoods : List Nogood
  watch_lists : List NogoodWatchList
  assignments : Assignments
  kept : List NogoodWatcher
  error : Option Inconsistency

/-- The watcher-traversal loop of propagate_or_find_new_watcher.  The source
iterates over the snapshot of the watch list taken at entry, compacting kept
watchers to the front and truncating at the end; here the snapshot is the todo
list, kept is the compacted prefix, and the caller writes kept back over the
processed list (which also discards any watcher the loop pushed onto the very
list being processed, exactly as the final truncate does in the source). -/
def pofnw_loop (domain_event : IntDomainEvent) (last_index_on_trail : Nat)
    (updated_domain_id : Nat) (nogoods : List Nogood)
    (watch_lists : List NogoodWatchList) (a : Assignments)
    (kept : List NogoodWatcher) : List NogoodWatcher → PofnwResult
  | [] => ⟨nogoods, watch_lists, a, kept, none⟩
  | w :: rest =>
    if has_been_updated domain_event w.right_hand_side a updated_domain_id
        last_index_on_trail then
      let ng := (nogoods.getD w.nogood_id {}).predicates
      let ng :=
        if is_watched_predicate (ng.getD 0 .trivially_true) domain_event w.right_hand_side a
            updated_domain_id then
          list_swap ng 0 1
        else ng
      let nogoods := set_nogood_predicates nogoods w.nogood_id ng
      if a.is_predicate_falsified (ng.getD 0 .trivially_true) then
        pofnw_loop domain_event last_index_on_trail updated_domain_id nogoods watch_lists a
          (kept ++ [w]) rest
      else
        match (ng.drop 2).findIdx? (fun p => !(a.is_predicate_satisfied p)) with
        | some j =>
            let i := j + 2
            let ng' := list_swap ng 1 i
            let nogoods := set_nogood_predicates nogoods w.nogood_id ng'
            let added := add_new_nogood_watcher watch_lists (ng'.getD 1 .trivially_true)
              w.nogood_id domain_event updated_domain_id
            match added.2 with
            | some new_rhs =>
                pofnw_loop domain_event last_index_on_trail updated_domain_id nogoods added.1 a
                  (kept ++ [{ w with right_hand_side := new_rhs }]) rest
            | none =>
                pofnw_loop domain_event last_index_on_trail updated_domain_id nogoods added.1 a
                  kept rest
        | none =>
            let kept := kept ++ [w]
            let post := a.post_predicate ((ng.getD 0 .trivially_true).negate)
              (some (.dynamicLazy w.nogood_id))
            match post.2 with
            | .ok =>
                pofnw_loop domain_event last_index_on_trail updated_domain_id nogoods
                  watch_lists post.1 kept rest
            | .emptyDomain =>
                ⟨nogoods, watch_lists, post.1, kept ++ rest, some .emptyDomain⟩
    else
      pofnw_loop domain_event last_index_on_trail updated_domain_id nogoods watch_lists a
        (kept ++ [w]) rest

def propagate_or_find_new_watcher (nogoods : List Nogood) (domain_event : IntDomainEvent)
    (last_index_on_trail : Nat) (watch_lists : List NogoodWatchList) (a : Assignments)
    (updated_domain_id : Nat) :
    List Nogood × List NogoodWatchList × Assignments × Option Inconsistency :=
  let snapshot := get_watch_list watch_lists updated_domain_id domain_event
  let r := pofnw_loop domain_event last_index_on_trail updated_domain_id nogoods watch_lists a
    [] snapshot
  (r.nogoods, set_watch_list r.watch_lists updated_domain_id domain_event r.kept,
    r.assignments, r.error)

def propagate_events (last_index_on_trail : Nat) (nogoods : List Nogood)
    (watch_lists : List NogoodWatchList) (a : Assignments) :
    List (IntDomainEvent × Nat) →
    List Nogood × List NogoodWatchList × Assignments × Option Inconsistency
  | [] => (nogoods, watch_lists, a, none)
  | (update_event, updated_domain_id) :: rest =>
      let r := propagate_or_find_new_watcher nogoods update_event last_index_on_trail
        watch_lists a updated_domain_id
      match r.2.2.2 with
      | some e => (r.1, r.2.1, r.2.2.1, some e)
      | none => propagate_events last_index_on_trail r.1 r.2.1 r.2.2.1 rest

/-- Propagator::propagate for the nogood propagator.  (The usize subtraction
for the old trail position underflows in Rust on an empty trail; natural
subtraction is used here and the claims only exercise nonempty trails.) -/
def NogoodPropagator.propagate (np : NogoodPropagator) (a : Assignments) :
    NogoodPropagator × Assignments × Option Inconsistency :=
  let np :=
    if np.watch_lists.length ≤ a.num_domains then
      { np with watch_lists := np.watch_lists
          ++ List.replicate (a.num_domains + 1 - np.watch_lists.length) {} }
    else np
  let old_trail_position := a.trail.entries.length - 1
  let events := np.enqueued_updates.drain_list
  let np := { np with enqueued_updates := np.enqueued_updates.clear }
  let r := propagate_events np.last_index_on_trail np.nogoods np.watch_lists a events
  match r.2.2.2 with
  | some e => ({ np with nogoods := r.1, watch_lists := r.2.1 }, r.2.2.1, some e)
  | none =>
      ({ np with nogoods := r.1, watch_lists := r.2.1,
                 last_index_on_trail := old_trail_position }, r.2.2.1, none)

def modify_nogood (nogoods : List Nogood) (i : Nat) (f : Nogood → Nogood) : List Nogood :=
  match nogoods.get? i with
  | some n => nogoods.set i (f n)
  | none => nogoods

def NogoodPropagator.lazy_explanation (np : NogoodPropagator) (code : Nat)
    (a : Assignments) : NogoodPropagator × List Predicate :=
  let id := code
  let n0 := np.nogoods.getD id {}
  let np :=
    if !n0.block_bumps && n0.is_learned && decide (np.parameters.lbd_threshold < n0.lbd) then
      let np := { np with
        nogoods := modify_nogood np.nogoods id (fun n => { n with block_bumps := true }),
        bumped_nogoods := np.bumped_nogoods ++ [id] }
      let current_lbd := compute_lbd ((np.nogoods.getD id {}).predicates.drop 1) a
      let np :=
        if current_lbd < (np.nogoods.getD id {}).lbd then
          { np with nogoods := modify_nogood np.nogoods id (fun n =>
              let n := { n with lbd := current_lbd }
              if current_lbd ≤ 30 then { n with is_protected := true } else n) }
        else np
      let np :=
        if (np.nogoods.getD id {}).activity + np.activity_bump_increment
            > np.parameters.max_activity then
          { np with
            nogoods := np.learned_nogood_ids.high_lbd.foldl (fun ns i =>
              modify_nogood ns i (fun n =>
                { n with activity := n.activity / np.parameters.max_activity })) np.nogoods,
            activity_bump_increment :=
              np.activity_bump_increment / np.parameters.max_activity }
        else np
      { np with nogoods := modify_nogood np.nogoods id (fun n =>
          { n with activity := n.activity + np.activity_bump_increment }) }
    else np
  (np, (np.nogoods.getD id {}).predicates.drop 1)

/-- Inner propagator seen through the propagator contract, as used by the
reified wrapper: an incremental propagate and an optional inconsistency
detector, both acting on the inner propagator's portion of the state. -/
structure InnerPropagator (σ : Type) where
  prop : σ → Except Inconsistency σ
  detect_inconsistency : σ → Option (List Predicate)

/-- The part of the propagation context the reified wrapper touches: the value
currently assigned to the reification literal, the reason recorded when this
wrapper assigns it, and the inner state. -/
structure ReifiedContext (σ : Type) where
  r_value : Option Bool
  r_reason : Option (List Predicate)
  inner : σ

/-- Modelled from the spec: assigning the reification literal to false with a
reason conjunction (context.assign_literal is not among the extracted
sources).  Assigning an unassigned literal records the reason; assigning an
already-false literal is a no-op; assigning a true literal to false is a
conflict. -/
def assign_literal_false {σ : Type} (s : ReifiedContext σ) (reason : List Predicate) :
    Except Inconsistency (ReifiedContext σ) :=
  match s.r_value with
  | none => .ok { s with r_value := some false, r_reason := some reason }
  | some false => .ok s
  | some true => .error (.conflict reason)

structure ReifiedPropagator (σ : Type) where
  propagator : InnerPropagator σ
  root_level_inconsistency : Option (List Predicate)

/-- map_propagation_status: add the reification literal (represented by its
predicate) to an explicit conflict conjunction. -/
def map_propagation_status {σ : Type} (r_predicate : Predicate)
    (status : Except Inconsistency σ) : Except Inconsistency σ :=
  match status with
  | .error (.conflict conjunction) => .error (.conflict (conjunction ++ [r_predicate]))
  | other => other

def ReifiedPropagator.propagate_reification {σ : Type} (rp : ReifiedPropagator σ)
    (s : ReifiedContext σ) : Except Inconsistency (ReifiedContext σ) :=
  if s.r_value.isNone then
    match rp.propagator.detect_inconsistency s.inner with
    | some conjunction => assign_literal_false s conjunction
    | none => .ok s
  else .ok s

/-- ReifiedPropagator::propagate.  The with_reification marker only augments
the reasons of inner propagations through the context; no claim concerns those
reasons, so the marker is not modelled. -/
def ReifiedPropagator.propagate {σ : Type} (rp : ReifiedPropagator σ)
    (r_predicate : Predicate) (s : ReifiedContext σ) :
    Except Inconsistency (ReifiedPropagator σ × ReifiedContext σ) :=
  let step1 : Except Inconsistency (ReifiedPropagator σ × ReifiedContext σ) :=
    match rp.root_level_inconsistency with
    | some conjunction =>
        match assign_literal_false s conjunction with
        | .ok s' => .ok ({ rp with root_level_inconsistency := none }, s')
        | .error e => .error e
    | none => .ok (rp, s)
  match step1 with
  | .error e => .error e
  | .ok (rp, s) =>
      let after_inner : Except Inconsistency (ReifiedContext σ) :=
        if s.r_value == some true then
          match map_propagation_status r_predicate (rp.propagator.prop s.inner) with
          | .ok inner' => .ok { s with inner := inner' }
          | .error e => .error e
        else .ok s
      match after_inner with
      | .error e => .error e
      | .ok s =>
          match rp.propagate_reification s with
          | .ok s' => .ok (rp, s')
          | .error e => .error e

/-! List helper lemmas shared by the claim proofs. -/

theorem list_getD_eq_get? {α : Type} (l : List α) (i : Nat) (d : α) :
    l.getD i d = (l.get? i).getD d := rfl

theorem list_get?_some_lt {α : Type} {l : List α} {i : Nat} {x : α}
    (h : l.get? i = some x) : i < l.length := by
  by_contra hc
  rw [List.get?_eq_none.2 (Nat.le_of_not_lt hc)] at h
  exact Option.noConfusion h

theorem list_getD_set_self {α : Type} (l : List α) (i : Nat) (x d : α)
    (h : i < l.length) : (l.set i x).getD i d = x := by
  rw [list_getD_eq_get?, List.get?_set_eq_of_lt x h]
  rfl

theorem list_getD_set_ne {α : Type} (l : List α) {i j : Nat} (x d : α)
    (h : i ≠ j) : (l.set i x).getD j d = l.getD j d := by
  rw [list_getD_eq_get?, List.get?_set_ne x l h, list_getD_eq_get?]

theorem list_set_getD_self {α : Type} (l : List α) (i : Nat) (d : α)
    (h : i < l.length) : l.set i (l.getD i d) = l := by
  induction l generalizing i with
  | nil => simp at h
  | cons a t ih =>
      cases i with
      | zero => rfl
      | succ n =>
          simp only [List.set, list_getD_eq_get?, List.get?]
          rw [← list_getD_eq_get?, ih n (by simpa using h)]

theorem list_getD_out_of_range {α : Type} (l : List α) (i : Nat) (d : α)
    (h : l.length ≤ i) : l.getD i d = d := by
  rw [list_getD_eq_get?, List.get?_eq_none.2 h]
  rfl

theorem list_getD_append_length {α : Type} (l : List α) (x d : α) :
    (l ++ [x]).getD l.length d = x := by
  induction l with
  | nil => rfl
  | cons a t ih => simpa using ih

theorem list_getLast?_filter {α : Type} (l : List α) (p : α → Bool) :
    (l.filter p).getLast? = l.reverse.find? p := by
  rw [← List.head?_reverse, ← List.filter_reverse, List.filter_head?]

theorem alookup_append_of_none {β : Type} (l1 l2 : List (Int × β)) (k : Int)
    (h : alookup l1 k = none) : alookup (l1 ++ l2) k = alookup l2 k := by
  induction l1 with
  | nil => rfl
  | cons kv t ih =>
      simp only [alookup] at h
      by_cases hk : kv.1 = k
      · rw [if_pos (by simpa using hk)] at h
        exact Option.noConfusion h
      · rw [if_neg (by simpa using hk)] at h
        simp only [List.cons_append, alookup]
        rw [if_neg (by simpa using hk)]
        exact ih h

theorem alookup_filter_ne {β : Type} (l : List (Int × β)) (k : Int)
    (h : alookup l k = none) :
    l.filter (fun kv => !(kv.1 == k)) = l := by
  induction l with
  | nil => rfl
  | cons kv t ih =>
      simp only [alookup] at h
      by_cases hk : kv.1 = k
      · rw [if_pos (by simpa using hk)] at h
        exact Option.noConfusion h
      · rw [if_neg (by simpa using hk)] at h
        have hb : (!(kv.1 == k)) = true := by simp [hk]
        simp [List.filter, hb, ih h]

/-! Concrete run for claim C1: a store with x = domain 1 over [1, 5] and
y = domain 2 over [0, 10]; one unrelated trail entry (y >= 1) at position 0,
then the hole x /= 3 at position 1.  Relative to last_index_on_trail = 0 the
value 3 has been removed from x by an explicit hole and lies strictly within
the unchanged bounds [1, 5]. -/

def c1_store : Assignments :=
  (((Assignments.construct [(1, 5), (0, 10)]).post_predicate
      (.lowerBound 2 1) none).1.post_predicate (.notEqual 1 3) none).1

/-- Claim C1, evaluation at the failing input: the value 3 was in the domain
of x at trail position 0 and is removed now (an explicit hole strictly inside
the unchanged bounds [1, 5]), yet has_been_updated answers false for the
Removal event, because its third condition compares the right-hand side with
new_lower_bound on both sides and is therefore unsatisfiable.  The claim (and
the comment in the source) require true here: a missed removal. -/
theorem spec_C1_has_been_updated_misses_explicit_hole :
    (c1_store.domains.getD 1 .dummy).contains_at_trail_position 3 0 = true
      ∧ (c1_store.domains.getD 1 .dummy).contains 3 = false
      ∧ ((c1_store.domains.getD 1 .dummy).lower_bound = 1
          ∧ (c1_store.domains.getD 1 .dummy).upper_bound = 5)
      ∧ has_been_updated .removal 3 c1_store 1 0 = false := by
  decide

/-! Concrete run for claim C2: x = domain 1 over [1, 10], y = domain 2 over
[0, 10].  Post x >= 2, run propagate once (this sets last_index_on_trail to
trail position 0), post x >= 4 with the corresponding notifications, add the
asserting nogood [x >= 5, x >= 3, y >= 2] (predicate 0 unassigned, predicate 1
satisfied; the wrapper posts x <= 4 and installs watchers on x >= 5 and
x >= 3), notify the upper-bound change, and run propagate. -/

def c2_state0 : NogoodPropagator × Assignments :=
  let a := ((Assignments.construct [(1, 10), (0, 10)]).post_predicate
    (.lowerBound 1 2) none).1
  let r := NogoodPropagator.propagate {} a
  (r.1, r.2.1)

def c2_state1 : NogoodPropagator × Assignments :=
  let a := (c2_state0.2.post_predicate (.lowerBound 1 4) none).1
  let np := (c2_state0.1.notify 1 .lowerBound).1
  let s := np.add_asserting_nogood (fun ng => ng) a
    [.lowerBound 1 5, .lowerBound 1 3, .lowerBound 2 2]
  ((s.1.notify 1 .upperBound).1, s.2)

def c2_final : NogoodPropagator × Assignments × Option Inconsistency :=
  c2_state1.1.propagate c2_state1.2

/-- Claim C2, evaluation at the failing input: the run above settles (the
final propagate returns no inconsistency), the single stored nogood is not
deleted and has length 3, but its predicate at position 0 (x >= 3) has no
watcher in the lower-bound watch list of x: while handling the watcher with
right-hand side 3, is_watched_predicate matched the other lower-bound
predicate x >= 5 (it compares only the predicate kind and domain), so the
watcher of x >= 3 was dropped while x >= 3 ended up in position 0.  The code's
own assertion debug_is_properly_watched fails at this state. -/
theorem spec_C2_watch_invariant_broken_after_propagate :
    c2_final.2.2 = none
      ∧ (c2_final.1.nogoods.getD 0 {}).is_deleted = false
      ∧ (c2_final.1.nogoods.getD 0 {}).predicates
          = [.lowerBound 1 3, .lowerBound 2 2, .lowerBound 1 5]
      ∧ c2_final.1.is_watching (.lowerBound 1 3) 0 = false
      ∧ c2_final.1.debug_is_properly_watched = false := by
  decide

/-! Claim C9: notify on the nogood propagator. -/

def EventSink.get_bit (s : EventSink) (e : IntDomainEvent) (d : Nat) : Bool :=
  (s.bits.getD d {}).get_event e

theorem set_event_get_event_self (b : EventBits) (e : IntDomainEvent) :
    (b.set_event e).get_event e = true := by
  cases e <;> rfl

theorem set_event_get_event_mono (b : EventBits) (e e' : IntDomainEvent)
    (h : b.get_event e' = true) : (b.set_event e).get_event e' = true := by
  cases e <;> cases e' <;>
    simp_all [EventBits.set_event, EventBits.get_event]

theorem grow_to_length (s : EventSink) (n : Nat) :
    n ≤ (s.grow_to n).bits.length := by
  simp only [EventSink.grow_to, List.length_append, List.length_replicate]
  omega

theorem event_occurred_length (s : EventSink) (e : IntDomainEvent) (d : Nat) :
    (s.event_occurred e d).bits.length = s.bits.length := by
  unfold EventSink.event_occurred
  cases h : s.bits.get? d
  · rfl
  · simp [List.length_set]

theorem event_occurred_bit_self (s : EventSink) (e : IntDomainEvent) (d : Nat)
    (h : d < s.bits.length) : (s.event_occurred e d).get_bit e d = true := by
  unfold EventSink.event_occurred EventSink.get_bit
  cases hb : s.bits.get? d with
  | none => exact absurd (List.get?_eq_none.1 hb) (Nat.not_le_of_lt h)
  | some b =>
      simp only []
      rw [list_getD_set_self _ _ _ _ h]
      exact set_event_get_event_self b e

theorem event_occurred_bit_mono (s : EventSink) (e e' : IntDomainEvent) (dd d' : Nat)
    (h : s.get_bit e' d' = true) : (s.event_occurred e dd).get_bit e' d' = true := by
  unfold EventSink.event_occurred EventSink.get_bit
  cases hb : s.bits.get? dd with
  | none => exact h
  | some b =>
      simp only []
      by_cases hd : dd = d'
      · subst hd
        rw [list_getD_set_self _ _ _ _ (list_get?_some_lt hb)]
        apply set_event_get_event_mono
        unfold EventSink.get_bit at h
        rwa [list_getD_eq_get?, hb] at h
      · rw [list_getD_set_ne _ _ _ hd]
        exact h

/-- Claim C9: for every domain event delivered to the nogood propagator via
notify, the event is recorded in the propagator's internal event sink and the
return value is always Enqueue; moreover a LowerBound or UpperBound event
additionally records a Removal event for the same domain. -/
theorem spec_C9_notify_records_event_and_enqueues (np : NogoodPropagator)
    (local_id : Nat) (ev : IntDomainEvent) :
    (np.notify local_id ev).2 = .enqueue
      ∧ (np.notify local_id ev).1.enqueued_updates.get_bit ev local_id = true
      ∧ (np.notify local_id .lowerBound).1.enqueued_updates.get_bit .removal local_id = true
      ∧ (np.notify local_id .upperBound).1.enqueued_updates.get_bit .removal local_id = true := by
  have hlen : local_id < (np.enqueued_updates.grow_to (local_id + 1)).bits.length :=
    Nat.lt_of_lt_of_le (Nat.lt_succ_self _) (grow_to_length _ _)
  refine ⟨rfl, ?_, ?_, ?_⟩
  · cases ev
    · exact event_occurred_bit_mono _ _ _ _ _ (event_occurred_bit_self _ _ _ hlen)
    · exact event_occurred_bit_mono _ _ _ _ _ (event_occurred_bit_self _ _ _ hlen)
    · exact event_occurred_bit_self _ _ _ hlen
    · exact event_occurred_bit_self _ _ _ hlen
  · exact event_occurred_bit_self _ _ _ (by rw [event_occurred_length]; exact hlen)
  · exact event_occurred_bit_self _ _ _ (by rw [event_occurred_length]; exact hlen)

/-- Claim C6: for every predicate over a non-empty domain,
evaluate_predicate p answers Some true exactly when evaluate_predicate of the
internal negation of p answers Some false; holes are taken into account for
the equality and disequality cases through the contains check. -/
theorem spec_C6_evaluate_negation (a : Assignments) (p : Predicate)
    (hnonempty : (a.domains.getD p.get_domain .dummy).lower_bound
        ≤ (a.domains.getD p.get_domain .dummy).upper_bound) :
    a.evaluate_predicate p = some true ↔ a.evaluate_predicate p.negate = some false := by
  cases p with
  | lowerBound d k =>
      simp only [Predicate.get_domain] at hnonempty
      simp only [Assignments.evaluate_predicate, Predicate.negate,
        Assignments.get_lower_bound, Assignments.get_upper_bound]
      split_ifs <;> simp_all <;> omega
  | upperBound d k =>
      simp only [Predicate.get_domain] at hnonempty
      simp only [Assignments.evaluate_predicate, Predicate.negate,
        Assignments.get_lower_bound, Assignments.get_upper_bound]
      split_ifs <;> simp_all <;> omega
  | notEqual d k =>
      simp only [Assignments.evaluate_predicate, Predicate.negate]
      split_ifs <;> simp_all
  | equal d k =>
      simp only [Assignments.evaluate_predicate, Predicate.negate]
      split_ifs <;> simp_all

/-- Witness for claim C6 at a concrete input: the store with x over [0, 10]
minus the value 2, and the predicate x /= 2. -/
theorem spec_C6_evaluate_negation_witness :
    ((((Assignments.construct [(0, 10)]).remove_value_from_domain 1 2
          none).1.domains.getD (Predicate.notEqual 1 2).get_domain .dummy).lower_bound
        ≤ (((Assignments.construct [(0, 10)]).remove_value_from_domain 1 2
          none).1.domains.getD (Predicate.notEqual 1 2).get_domain .dummy).upper_bound)
      ∧ (((Assignments.construct [(0, 10)]).remove_value_from_domain 1 2
            none).1.evaluate_predicate (.notEqual 1 2) = some true
          ↔ ((Assignments.construct [(0, 10)]).remove_value_from_domain 1 2
            none).1.evaluate_predicate (Predicate.notEqual 1 2).negate = some false) :=
  ⟨by decide,
    spec_C6_evaluate_negation
      ((Assignments.construct [(0, 10)]).remove_value_from_domain 1 2 none).1
      (.notEqual 1 2) (by decide)⟩

/-- Direct transcription of the spec sentence for the point-in-time query:
the bound of the last update whose trail position is at most tp (the first
match when scanning the update history from the most recent end). -/
def last_bound_at_or_before (updates : List BoundUpdateInfo) (tp : Nat) : Option Int :=
  (updates.reverse.find? (fun u => decide (u.trail_position ≤ tp))).map (·.bound)

theorem find?_reverse_isSome_of_head (updates : List BoundUpdateInfo) (tp : Nat)
    (u : BoundUpdateInfo) (hhead : updates.head? = some u) (h0 : u.trail_position = 0) :
    (updates.reverse.find? (fun v => decide (v.trail_position ≤ tp))).isSome := by
  rw [List.find?_isSome]
  exact ⟨u, by
    rw [List.mem_reverse]
    exact List.mem_of_mem_head? hhead, by simp [h0]⟩

/-- Claim C5: lower_bound_at_trail_position (and symmetrically the upper
bound) returns the bound of the last update whose trail position is at most
tp, and contains_at_trail_position holds exactly when the value is within the
bounds at tp and is either not a recorded hole or a hole recorded strictly
after tp.  The hypotheses are the construction invariant that each bound
history starts with the initial entry at trail position 0. -/
theorem spec_C5_point_in_time_queries (d : IntegerDomain) (v : Int) (tp : Nat)
    (hlb : ∃ u, d.lower_bound_updates.head? = some u ∧ u.trail_position = 0)
    (hub : ∃ u, d.upper_bound_updates.head? = some u ∧ u.trail_position = 0) :
    last_bound_at_or_before d.lower_bound_updates tp
        = some (d.lower_bound_at_trail_position tp)
      ∧ last_bound_at_or_before d.upper_bound_updates tp
        = some (d.upper_bound_at_trail_position tp)
      ∧ (d.contains_at_trail_position v tp = true ↔
          d.lower_bound_at_trail_position tp ≤ v
            ∧ v ≤ d.upper_bound_at_trail_position tp
            ∧ ∀ info, alookup d.holes v = some info → tp < info.trail_position) := by
  obtain ⟨ul, hul, hul0⟩ := hlb
  obtain ⟨uu, huu, huu0⟩ := hub
  have hsl := find?_reverse_isSome_of_head d.lower_bound_updates tp ul hul hul0
  have hsu := find?_reverse_isSome_of_head d.upper_bound_updates tp uu huu huu0
  obtain ⟨wl, hwl⟩ := Option.isSome_iff_exists.1 hsl
  obtain ⟨wu, hwu⟩ := Option.isSome_iff_exists.1 hsu
  have hl : d.lower_bound_at_trail_position tp = wl.bound := by
    unfold IntegerDomain.lower_bound_at_trail_position
    rw [list_getLast?_filter, hwl]
  have hu : d.upper_bound_at_trail_position tp = wu.bound := by
    unfold IntegerDomain.upper_bound_at_trail_position
    rw [list_getLast?_filter, hwu]
  refine ⟨?_, ?_, ?_⟩
  · unfold last_bound_at_or_before
    rw [hwl, hl]
    rfl
  · unfold last_bound_at_or_before
    rw [hwu, hu]
    rfl
  · unfold IntegerDomain.contains_at_trail_position
    cases hh : alookup d.holes v with
    | none =>
        split_ifs with hout
        · constructor
          · intro hfalse
            exact hfalse.elim
          · intro ⟨h1, h2, _⟩
            exfalso
            omega
        · push_neg at hout
          dsimp only
          constructor
          · intro _
            exact ⟨hout.1, hout.2, fun info hinfo => by simp at hinfo⟩
          · intro _
            trivial
    | some info =>
        split_ifs with hout
        · constructor
          · intro hfalse
            exact hfalse.elim
          · intro ⟨h1, h2, _⟩
            exfalso
            omega
        · push_neg at hout
          dsimp only
          split_ifs with hle
          · constructor
            · intro hfalse
              exact hfalse.elim
            · intro ⟨h1, h2, hall⟩
              have := hall info rfl
              exfalso
              omega
          · constructor
            · intro _
              refine ⟨hout.1, hout.2, fun info' hinfo' => ?_⟩
              cases hinfo'
              omega
            · intro _
              trivial

/-- Witness for claim C5 at a concrete input: the fresh domain [1, 5], value 2
and trail position 0. -/
theorem spec_C5_point_in_time_queries_witness :
    last_bound_at_or_before (IntegerDomain.new 1 5 0).lower_bound_updates 0
        = some ((IntegerDomain.new 1 5 0).lower_bound_at_trail_position 0)
      ∧ last_bound_at_or_before (IntegerDomain.new 1 5 0).upper_bound_updates 0
        = some ((IntegerDomain.new 1 5 0).upper_bound_at_trail_position 0)
      ∧ ((IntegerDomain.new 1 5 0).contains_at_trail_position 2 0 = true ↔
          (IntegerDomain.new 1 5 0).lower_bound_at_trail_position 0 ≤ 2
            ∧ (2 : Int) ≤ (IntegerDomain.new 1 5 0).upper_bound_at_trail_position 0
            ∧ ∀ info, alookup (IntegerDomain.new 1 5 0).holes 2 = some info
                → 0 < info.trail_position) :=
  spec_C5_point_in_time_queries (IntegerDomain.new 1 5 0) 2 0
    ⟨⟨1, 0, 0⟩, rfl, rfl⟩ ⟨⟨5, 0, 0⟩, rfl, rfl⟩

/-! Unfolding lemmas for the domain-changing operations, shared by several
claim proofs. -/

theorem verify_consistency_iff (d : IntegerDomain) :
    d.verify_consistency = .emptyDomain ↔ d.lower_bound > d.upper_bound := by
  unfold IntegerDomain.verify_consistency
  split_ifs with h
  · simp [h]
  · simp [h]

theorem set_lower_bound_weak (d : IntegerDomain) (nb : Int) (dl tp : Nat)
    (ev : EventSink) (h : nb ≤ d.lower_bound) :
    d.set_lower_bound nb dl tp ev = (d, ev) := by
  unfold IntegerDomain.set_lower_bound
  rw [if_pos h]

theorem set_lower_bound_fst (d : IntegerDomain) (nb : Int) (dl tp : Nat)
    (ev : EventSink) (h : ¬(nb ≤ d.lower_bound)) :
    (d.set_lower_bound nb dl tp ev).1 =
      { d with lower_bound_updates := d.lower_bound_updates
          ++ [⟨advance_past_holes_up d.holes d.upper_bound nb, dl, tp⟩] } := by
  unfold IntegerDomain.set_lower_bound
  rw [if_neg h]

theorem set_upper_bound_weak (d : IntegerDomain) (nb : Int) (dl tp : Nat)
    (ev : EventSink) (h : nb ≥ d.upper_bound) :
    d.set_upper_bound nb dl tp ev = (d, ev) := by
  unfold IntegerDomain.set_upper_bound
  rw [if_pos h]

theorem set_upper_bound_fst (d : IntegerDomain) (nb : Int) (dl tp : Nat)
    (ev : EventSink) (h : ¬(nb ≥ d.upper_bound)) :
    (d.set_upper_bound nb dl tp ev).1 =
      { d with upper_bound_updates := d.upper_bound_updates
          ++ [⟨advance_past_holes_down d.holes d.lower_bound nb, dl, tp⟩] } := by
  unfold IntegerDomain.set_upper_bound
  rw [if_neg h]

theorem tighten_lower_bound_weak (a : Assignments) (id : Nat) (v : Int)
    (r : Option Reason) (h : v ≤ a.get_lower_bound id) :
    a.tighten_lower_bound id v r = (a, (a.domains.getD id .dummy).verify_consistency) := by
  unfold Assignments.tighten_lower_bound
  rw [if_pos h]

theorem tighten_lower_bound_strong (a : Assignments) (id : Nat) (v : Int)
    (r : Option Reason) (h : ¬(v ≤ a.get_lower_bound id)) :
    a.tighten_lower_bound id v r =
      ({ a with
          trail := { a.trail with entries := a.trail.entries
            ++ [⟨.lowerBound id v, a.get_lower_bound id, a.get_upper_bound id, r⟩] },
          domains := a.domains.set id ((a.domains.getD id .dummy).set_lower_bound v
            a.get_decision_level a.trail.entries.length a.events).1,
          events := ((a.domains.getD id .dummy).set_lower_bound v
            a.get_decision_level a.trail.entries.length a.events).2 },
        ((a.domains.getD id .dummy).set_lower_bound v
          a.get_decision_level a.trail.entries.length a.events).1.verify_consistency) := by
  unfold Assignments.tighten_lower_bound
  rw [if_neg h]
  rfl

theorem tighten_upper_bound_weak (a : Assignments) (id : Nat) (v : Int)
    (r : Option Reason) (h : v ≥ a.get_upper_bound id) :
    a.tighten_upper_bound id v r = (a, (a.domains.getD id .dummy).verify_consistency) := by
  unfold Assignments.tighten_upper_bound
  rw [if_pos h]

theorem tighten_upper_bound_strong (a : Assignments) (id : Nat) (v : Int)
    (r : Option Reason) (h : ¬(v ≥ a.get_upper_bound id)) :
    a.tighten_upper_bound id v r =
      ({ a with
          trail := { a.trail with entries := a.trail.entries
            ++ [⟨.upperBound id v, a.get_lower_bound id, a.get_upper_bound id, r⟩] },
          domains := a.domains.set id ((a.domains.getD id .dummy).set_upper_bound v
            a.get_decision_level a.trail.entries.length a.events).1,
          events := ((a.domains.getD id .dummy).set_upper_bound v
            a.get_decision_level a.trail.entries.length a.events).2 },
        ((a.domains.getD id .dummy).set_upper_bound v
          a.get_decision_level a.trail.entries.length a.events).1.verify_consistency) := by
  unfold Assignments.tighten_upper_bound
  rw [if_neg h]
  rfl

theorem remove_value_weak (a : Assignments) (id : Nat) (v : Int)
    (r : Option Reason) (h : ¬((a.domains.getD id .dummy).contains v = true)) :
    a.remove_value_from_domain id v r
      = (a, (a.domains.getD id .dummy).verify_consistency) := by
  unfold Assignments.remove_value_from_domain
  rw [if_pos (by simpa using h)]

theorem remove_value_strong (a : Assignments) (id : Nat) (v : Int)
    (r : Option Reason) (h : (a.domains.getD id .dummy).contains v = true) :
    a.remove_value_from_domain id v r =
      ({ a with
          trail := { a.trail with entries := a.trail.entries
            ++ [⟨.notEqual id v, a.get_lower_bound id, a.get_upper_bound id, r⟩] },
          domains := a.domains.set id ((a.domains.getD id .dummy).remove_value v
            a.get_decision_level a.trail.entries.length a.events).1,
          events := ((a.domains.getD id .dummy).remove_value v
            a.get_decision_level a.trail.entries.length a.events).2 },
        ((a.domains.getD id .dummy).remove_value v
          a.get_decision_level a.trail.entries.length a.events).1.verify_consistency) := by
  unfold Assignments.remove_value_from_domain
  rw [if_neg (by
    have h' : (a.domains[id]?.getD IntegerDomain.dummy).contains v = true := by
      rw [← List.getD_eq_getElem?_getD]
      exact h
    simp [h'])]
  rfl

/-- Claim C10: each of tighten_lower_bound, tighten_upper_bound and
remove_value_from_domain answers Err EmptyDomain exactly when the domain's
lower bound exceeds its upper bound after the call; a weakening update on an
already-empty domain leaves the state untouched yet answers Err EmptyDomain;
and a strengthening lower-bound update always retains the pushed trail entry
and the pushed bound update, in particular when the call empties the domain
(the error is not atomic). -/
theorem spec_C10_empty_domain_not_atomic (a : Assignments) (id : Nat) (v : Int)
    (r : Option Reason) (hid : id < a.domains.length) :
    ((a.tighten_lower_bound id v r).2 = .emptyDomain ↔
        ((a.tighten_lower_bound id v r).1.domains.getD id .dummy).lower_bound
          > ((a.tighten_lower_bound id v r).1.domains.getD id .dummy).upper_bound)
      ∧ ((a.tighten_upper_bound id v r).2 = .emptyDomain ↔
          ((a.tighten_upper_bound id v r).1.domains.getD id .dummy).lower_bound
            > ((a.tighten_upper_bound id v r).1.domains.getD id .dummy).upper_bound)
      ∧ ((a.remove_value_from_domain id v r).2 = .emptyDomain ↔
          ((a.remove_value_from_domain id v r).1.domains.getD id .dummy).lower_bound
            > ((a.remove_value_from_domain id v r).1.domains.getD id .dummy).upper_bound)
      ∧ (v ≤ a.get_lower_bound id → a.get_lower_bound id > a.get_upper_bound id →
          a.tighten_lower_bound id v r = (a, .emptyDomain))
      ∧ (a.get_lower_bound id < v →
          (a.tighten_lower_bound id v r).1.trail.entries
              = a.trail.entries
                ++ [⟨.lowerBound id v, a.get_lower_bound id, a.get_upper_bound id, r⟩]
            ∧ ∃ u, ((a.tighten_lower_bound id v r).1.domains.getD id .dummy).lower_bound_updates
                = (a.domains.getD id .dummy).lower_bound_updates ++ [u]) := by
  refine ⟨?_, ?_, ?_, ?_, ?_⟩
  · by_cases hg : v ≤ a.get_lower_bound id
    · rw [tighten_lower_bound_weak a id v r hg]
      exact verify_consistency_iff _
    · rw [tighten_lower_bound_strong a id v r hg]
      dsimp only
      rw [list_getD_set_self _ _ _ _ (by simpa using hid)]
      exact verify_consistency_iff _
  · by_cases hg : v ≥ a.get_upper_bound id
    · rw [tighten_upper_bound_weak a id v r hg]
      exact verify_consistency_iff _
    · rw [tighten_upper_bound_strong a id v r hg]
      dsimp only
      rw [list_getD_set_self _ _ _ _ (by simpa using hid)]
      exact verify_consistency_iff _
  · by_cases hg : (a.domains.getD id .dummy).contains v = true
    · rw [remove_value_strong a id v r hg]
      dsimp only
      rw [list_getD_set_self _ _ _ _ (by simpa using hid)]
      exact verify_consistency_iff _
    · rw [remove_value_weak a id v r hg]
      exact verify_consistency_iff _
  · intro hweak hempty
    rw [tighten_lower_bound_weak a id v r hweak]
    have : (a.domains.getD id .dummy).verify_consistency = .emptyDomain :=
      (verify_consistency_iff _).2 hempty
    rw [this]
  · intro hstrong
    rw [tighten_lower_bound_strong a id v r (by omega)]
    dsimp only
    refine ⟨rfl, ?_⟩
    rw [list_getD_set_self _ _ _ _ (by simpa using hid)]
    rw [set_lower_bound_fst _ _ _ _ _ (by
      unfold Assignments.get_lower_bound at hstrong
      omega)]
    exact ⟨_, rfl⟩

/-- Witness for claim C10 at a concrete input: the store with x over [1, 5],
the value 3 and no reason. -/
theorem spec_C10_empty_domain_not_atomic_witness :
    (1 : Nat) < (Assignments.construct [(1, 5)]).domains.length
      ∧ (((Assignments.construct [(1, 5)]).tighten_lower_bound 1 3 none).2 = .emptyDomain ↔
          ((((Assignments.construct [(1, 5)]).tighten_lower_bound 1 3
              none).1.domains.getD 1 .dummy).lower_bound
            > (((Assignments.construct [(1, 5)]).tighten_lower_bound 1 3
              none).1.domains.getD 1 .dummy).upper_bound)) :=
  ⟨by decide,
    (spec_C10_empty_domain_not_atomic (Assignments.construct [(1, 5)]) 1 3 none
      (by decide)).1⟩

/-! Claim C7: the trail round-trip.  Undoing, newest first, the trail entries
pushed by any sequence of posts restores the domains exactly. -/

def undo_fold (es : List ConstraintProgrammingTrailEntry) (ds : List IntegerDomain) :
    List IntegerDomain :=
  es.foldr Assignments.undo_one ds

theorem undo_fold_append (es1 es2 : List ConstraintProgrammingTrailEntry)
    (ds : List IntegerDomain) :
    undo_fold (es1 ++ es2) ds = undo_fold es1 (undo_fold es2 ds) :=
  List.foldr_append _ _ _ _

/-- Undoing a lower-bound entry pops the bound update pushed by
set_lower_bound. -/
theorem set_lower_bound_restore (d : IntegerDomain) (nb : Int) (dl tp : Nat)
    (ev : EventSink) (h : ¬(nb ≤ d.lower_bound)) (id' : Nat) (v olb oub : Int)
    (r : Option Reason) :
    ((d.set_lower_bound nb dl tp ev).1).undo_trail_entry
      ⟨.lowerBound id' v, olb, oub, r⟩ = d := by
  rw [set_lower_bound_fst _ _ _ _ _ h]
  unfold IntegerDomain.undo_trail_entry
  dsimp only
  rw [List.dropLast_concat]

theorem set_upper_bound_restore (d : IntegerDomain) (nb : Int) (dl tp : Nat)
    (ev : EventSink) (h : ¬(nb ≥ d.upper_bound)) (id' : Nat) (v olb oub : Int)
    (r : Option Reason) :
    ((d.set_upper_bound nb dl tp ev).1).undo_trail_entry
      ⟨.upperBound id' v, olb, oub, r⟩ = d := by
  rw [set_upper_bound_fst _ _ _ _ _ h]
  unfold IntegerDomain.undo_trail_entry
  dsimp only
  rw [List.dropLast_concat]

theorem holes_filter_restore (d : IntegerDomain) (v : Int)
    (hlook : alookup d.holes v = none) (i : PairDecisionLevelTrailPosition) :
    (d.holes ++ [(v, i)]).filter (fun kv => !(kv.1 == v)) = d.holes := by
  rw [List.filter_append, alookup_filter_ne d.holes v hlook]
  simp

/-- Undoing a not-equal entry pops the hole update, the hole, and the bound
updates its flags record. -/
theorem remove_value_restore (d : IntegerDomain) (v : Int) (dl tp : Nat)
    (ev : EventSink)
    (hlb : d.lower_bound ≤ v) (hub : v ≤ d.upper_bound)
    (hlook : alookup d.holes v = none)
    (id' : Nat) (olb oub : Int) (r : Option Reason) :
    ((d.remove_value v dl tp ev).1).undo_trail_entry
      ⟨.notEqual id' v, olb, oub, r⟩ = d := by
  have hguard : ¬(v < d.lower_bound ∨ d.upper_bound < v
      ∨ (alookup d.holes v).isSome = true) := by
    push_neg
    exact ⟨by omega, by omega, by simp [hlook]⟩
  unfold IntegerDomain.remove_value
  rw [if_neg hguard]
  dsimp only
  cases htlb : d.lower_bound == v <;> cases htub : d.upper_bound == v <;>
    simp only [htlb, htub, Bool.false_eq_true, ite_false, ite_true, eq_self_iff_true]
  · unfold IntegerDomain.undo_trail_entry
    dsimp only
    rw [List.getLast?_concat]
    dsimp only
    simp only [Bool.false_eq_true, ite_false]
    rw [List.dropLast_concat, holes_filter_restore d v hlook]
  · have hub' : d.upper_bound = v := by simpa using htub
    rw [set_upper_bound_fst _ _ _ _ _ (by
      show ¬(v - 1 ≥ d.upper_bound)
      omega)]
    unfold IntegerDomain.undo_trail_entry
    dsimp only
    rw [List.getLast?_concat]
    dsimp only
    simp only [Bool.false_eq_true, ite_false, eq_self_iff_true, ite_true]
    rw [List.dropLast_concat, List.dropLast_concat, holes_filter_restore d v hlook]
  · have hlb' : d.lower_bound = v := by simpa using htlb
    rw [set_lower_bound_fst _ _ _ _ _ (by
      show ¬(v + 1 ≤ d.lower_bound)
      omega)]
    unfold IntegerDomain.undo_trail_entry
    dsimp only
    rw [List.getLast?_concat]
    dsimp only
    simp only [Bool.false_eq_true, ite_false, eq_self_iff_true, ite_true]
    rw [List.dropLast_concat, List.dropLast_concat, holes_filter_restore d v hlook]
  · have hlb' : d.lower_bound = v := by simpa using htlb
    have hub' : d.upper_bound = v := by simpa using htub
    rw [set_lower_bound_fst _ _ _ _ _ (by
      show ¬(v + 1 ≤ d.lower_bound)
      omega)]
    rw [set_upper_bound_fst _ _ _ _ _ (by
      show ¬(v - 1 ≥ d.upper_bound)
      omega)]
    unfold IntegerDomain.undo_trail_entry
    dsimp only
    rw [List.getLast?_concat]
    dsimp only
    simp only [Bool.false_eq_true, ite_false, eq_self_iff_true, ite_true]
    rw [List.dropLast_concat, List.dropLast_concat, List.dropLast_concat,
      holes_filter_restore d v hlook]

/-- Undoing one trail entry on a domain list that was just updated at the
entry's domain restores the list, given that undoing the entry restores the
domain value itself. -/
theorem undo_one_set (ds : List IntegerDomain) (id : Nat) (d' : IntegerDomain)
    (e : ConstraintProgrammingTrailEntry) (hdom : e.predicate.get_domain = id)
    (hrestore : d'.undo_trail_entry e = ds.getD id .dummy) :
    Assignments.undo_one e (ds.set id d') = ds := by
  unfold Assignments.undo_one
  rw [hdom]
  by_cases hid : id < ds.length
  · rw [list_getD_set_self _ _ _ _ hid, hrestore, List.set_set,
      list_set_getD_self _ _ _ hid]
  · have hle := Nat.le_of_not_lt hid
    rw [List.set_eq_of_length_le hle, List.set_eq_of_length_le hle]

theorem tighten_lower_bound_undo (a : Assignments) (id : Nat) (v : Int)
    (r : Option Reason) :
    ∃ es, (a.tighten_lower_bound id v r).1.trail.entries = a.trail.entries ++ es
      ∧ (a.tighten_lower_bound id v r).1.trail.boundaries = a.trail.boundaries
      ∧ undo_fold es (a.tighten_lower_bound id v r).1.domains = a.domains := by
  by_cases hg : v ≤ a.get_lower_bound id
  · rw [tighten_lower_bound_weak _ _ _ _ hg]
    exact ⟨[], by simp, rfl, rfl⟩
  · rw [tighten_lower_bound_strong _ _ _ _ hg]
    refine ⟨[⟨.lowerBound id v, a.get_lower_bound id, a.get_upper_bound id, r⟩],
      rfl, rfl, ?_⟩
    show Assignments.undo_one _ _ = a.domains
    apply undo_one_set
    · rfl
    · exact set_lower_bound_restore _ _ _ _ _ (by
        unfold Assignments.get_lower_bound at hg
        exact hg) _ _ _ _ _

theorem tighten_upper_bound_undo (a : Assignments) (id : Nat) (v : Int)
    (r : Option Reason) :
    ∃ es, (a.tighten_upper_bound id v r).1.trail.entries = a.trail.entries ++ es
      ∧ (a.tighten_upper_bound id v r).1.trail.boundaries = a.trail.boundaries
      ∧ undo_fold es (a.tighten_upper_bound id v r).1.domains = a.domains := by
  by_cases hg : v ≥ a.get_upper_bound id
  · rw [tighten_upper_bound_weak _ _ _ _ hg]
    exact ⟨[], by simp, rfl, rfl⟩
  · rw [tighten_upper_bound_strong _ _ _ _ hg]
    refine ⟨[⟨.upperBound id v, a.get_lower_bound id, a.get_upper_bound id, r⟩],
      rfl, rfl, ?_⟩
    show Assignments.undo_one _ _ = a.domains
    apply undo_one_set
    · rfl
    · exact set_upper_bound_restore _ _ _ _ _ (by
        unfold Assignments.get_upper_bound at hg
        exact hg) _ _ _ _ _

theorem remove_value_undo (a : Assignments) (id : Nat) (v : Int)
    (r : Option Reason) :
    ∃ es, (a.remove_value_from_domain id v r).1.trail.entries = a.trail.entries ++ es
      ∧ (a.remove_value_from_domain id v r).1.trail.boundaries = a.trail.boundaries
      ∧ undo_fold es (a.remove_value_from_domain id v r).1.domains = a.domains := by
  by_cases hg : (a.domains.getD id .dummy).contains v = true
  · rw [remove_value_strong _ _ _ _ hg]
    refine ⟨[⟨.notEqual id v, a.get_lower_bound id, a.get_upper_bound id, r⟩],
      rfl, rfl, ?_⟩
    show Assignments.undo_one _ _ = a.domains
    apply undo_one_set
    · rfl
    · unfold IntegerDomain.contains at hg
      simp only [Bool.and_eq_true, decide_eq_true_eq, Option.isNone_iff_eq_none] at hg
      exact remove_value_restore _ _ _ _ _ hg.1.1 hg.1.2 hg.2 _ _ _ _
  · rw [remove_value_weak _ _ _ _ hg]
    exact ⟨[], by simp, rfl, rfl⟩

theorem make_assignment_undo (a : Assignments) (id : Nat) (v : Int)
    (r : Option Reason) :
    ∃ es, (a.make_assignment id v r).1.trail.entries = a.trail.entries ++ es
      ∧ (a.make_assignment id v r).1.trail.boundaries = a.trail.boundaries
      ∧ undo_fold es (a.make_assignment id v r).1.domains = a.domains := by
  obtain ⟨es1, he1, hb1, hu1⟩ := tighten_lower_bound_undo a id v r
  unfold Assignments.make_assignment
  dsimp only
  by_cases hc1 : a.get_lower_bound id < v
  · rw [if_pos hc1]
    cases hr1 : (a.tighten_lower_bound id v r).2 with
    | emptyDomain => exact ⟨es1, he1, hb1, hu1⟩
    | ok =>
        dsimp only
        obtain ⟨es2, he2, hb2, hu2⟩ :=
          tighten_upper_bound_undo (a.tighten_lower_bound id v r).1 id v r
        by_cases hc2 : (a.tighten_lower_bound id v r).1.get_upper_bound id > v
        · rw [if_pos hc2]
          cases hr2 : ((a.tighten_lower_bound id v r).1.tighten_upper_bound id v r).2 with
          | emptyDomain =>
              exact ⟨es1 ++ es2, by rw [he2, he1, List.append_assoc],
                by rw [hb2, hb1], by rw [undo_fold_append, hu2, hu1]⟩
          | ok =>
              exact ⟨es1 ++ es2, by rw [he2, he1, List.append_assoc],
                by rw [hb2, hb1], by rw [undo_fold_append, hu2, hu1]⟩
        · rw [if_neg hc2]
          exact ⟨es1, he1, hb1, hu1⟩
  · rw [if_neg hc1]
    dsimp only
    obtain ⟨es2, he2, hb2, hu2⟩ := tighten_upper_bound_undo a id v r
    by_cases hc2 : a.get_upper_bound id > v
    · rw [if_pos hc2]
      cases hr2 : (a.tighten_upper_bound id v r).2 with
      | emptyDomain => exact ⟨es2, he2, hb2, hu2⟩
      | ok => exact ⟨es2, he2, hb2, hu2⟩
    · rw [if_neg hc2]
      exact ⟨[], by simp, rfl, rfl⟩

theorem post_predicate_undo (a : Assignments) (p : Predicate) (r : Option Reason) :
    ∃ es, (a.post_predicate p r).1.trail.entries = a.trail.entries ++ es
      ∧ (a.post_predicate p r).1.trail.boundaries = a.trail.boundaries
      ∧ undo_fold es (a.post_predicate p r).1.domains = a.domains := by
  cases p with
  | lowerBound id v => exact tighten_lower_bound_undo a id v r
  | upperBound id v => exact tighten_upper_bound_undo a id v r
  | notEqual id v => exact remove_value_undo a id v r
  | equal id v => exact make_assignment_undo a id v r

/-- One step of the scenario of claim C7: either the search pushes a decision
level or a predicate is posted (with no reason, as for decisions). -/
inductive SolverStep where
  | newLevel
  | post (p : Predicate)

def run_solver_steps (a : Assignments) : List SolverStep → Assignments × Bool
  | [] => (a, true)
  | .newLevel :: rest => run_solver_steps a.increase_decision_level rest
  | .post p :: rest =>
      let r := a.post_predicate p none
      let rr := run_solver_steps r.1 rest
      (rr.1, (r.2 == .ok) && rr.2)

theorem run_solver_steps_undo (steps : List SolverStep) :
    ∀ a : Assignments, ∃ es bs,
      (run_solver_steps a steps).1.trail.entries = a.trail.entries ++ es
        ∧ (run_solver_steps a steps).1.trail.boundaries = a.trail.boundaries ++ bs
        ∧ undo_fold es (run_solver_steps a steps).1.domains = a.domains := by
  induction steps with
  | nil => exact fun a => ⟨[], [], by simp [run_solver_steps], by simp [run_solver_steps], rfl⟩
  | cons s rest ih =>
      intro a
      cases s with
      | newLevel =>
          obtain ⟨es, bs, he, hb, hu⟩ := ih a.increase_decision_level
          refine ⟨es, a.trail.entries.length :: bs, ?_, ?_, ?_⟩
          · show (run_solver_steps a.increase_decision_level rest).1.trail.entries = _
            rw [he]
            rfl
          · show (run_solver_steps a.increase_decision_level rest).1.trail.boundaries = _
            rw [hb]
            show (a.trail.boundaries ++ [a.trail.entries.length]) ++ bs = _
            simp
          · show undo_fold es
              (run_solver_steps a.increase_decision_level rest).1.domains = _
            rw [hu]
            rfl
      | post p =>
          obtain ⟨es1, he1, hb1, hu1⟩ := post_predicate_undo a p none
          obtain ⟨es2, bs, he2, hb2, hu2⟩ := ih (a.post_predicate p none).1
          refine ⟨es1 ++ es2, bs, ?_, ?_, ?_⟩
          · show (run_solver_steps (a.post_predicate p none).1 rest).1.trail.entries = _
            rw [he2, he1, List.append_assoc]
          · show (run_solver_steps (a.post_predicate p none).1 rest).1.trail.boundaries = _
            rw [hb2, hb1]
          · show undo_fold _ (run_solver_steps (a.post_predicate p none).1 rest).1.domains = _
            rw [undo_fold_append, hu2, hu1]

theorem synchronise_step_pair (acc : List IntegerDomain × List (Nat × Int))
    (e : ConstraintProgrammingTrailEntry) :
    ∃ u, synchronise_step acc e = (Assignments.undo_one e acc.1, u) := by
  unfold synchronise_step
  dsimp only
  split_ifs <;> exact ⟨_, rfl⟩

theorem foldl_synchronise_step_fst (l : List ConstraintProgrammingTrailEntry) :
    ∀ (ds : List IntegerDomain) (u : List (Nat × Int)),
      (l.foldl synchronise_step (ds, u)).1
        = l.foldl (fun ds e => Assignments.undo_one e ds) ds := by
  induction l with
  | nil => intro ds u; rfl
  | cons e rest ih =>
      intro ds u
      obtain ⟨u', hu'⟩ := synchronise_step_pair (ds, u) e
      simp only [List.foldl, hu']
      exact ih _ _

theorem synchronise_zero_domains (a : Assignments)
    (h0 : a.trail.boundaries.getD 0 a.trail.entries.length = 0) :
    (a.synchronise 0).1.domains = undo_fold a.trail.entries a.domains := by
  unfold Assignments.synchronise
  dsimp only
  rw [h0, List.drop_zero, foldl_synchronise_step_fst, List.foldl_reverse]
  rfl

theorem construct_trail (bounds : List (Int × Int)) :
    (Assignments.construct bounds).trail = ⟨[], []⟩ := by
  unfold Assignments.construct
  have : ∀ (l : List (Int × Int)) (a : Assignments),
      (l.foldl (fun a b => (a.grow b.1 b.2).1) a).trail = a.trail := by
    intro l
    induction l with
    | nil => intro a; rfl
    | cons b rest ih => intro a; rw [List.foldl, ih]; rfl
  rw [this]
  rfl

theorem construct_increase_domains (bounds : List (Int × Int)) :
    (Assignments.construct bounds).increase_decision_level.domains
      = (Assignments.construct bounds).domains := rfl

/-- Claim C7: starting from a freshly constructed store, pushing a decision
level and then performing any sequence of successful posts (interleaved with
further decision levels), synchronise(0) undoes every trail entry and restores
every domain, with its bounds, holes and full update histories, exactly to its
state after construction. -/
theorem spec_C7_trail_round_trip (bounds : List (Int × Int)) (steps : List SolverStep)
    (hok : (run_solver_steps (Assignments.construct bounds).increase_decision_level
      steps).2 = true) :
    (((run_solver_steps (Assignments.construct bounds).increase_decision_level
        steps).1).synchronise 0).1.domains = (Assignments.construct bounds).domains := by
  obtain ⟨es, bs, he, hb, hu⟩ :=
    run_solver_steps_undo steps (Assignments.construct bounds).increase_decision_level
  have htrail : (Assignments.construct bounds).increase_decision_level.trail.entries = []
      ∧ (Assignments.construct bounds).increase_decision_level.trail.boundaries = [0] := by
    rw [show (Assignments.construct bounds).increase_decision_level.trail
        = { entries := (Assignments.construct bounds).trail.entries,
            boundaries := (Assignments.construct bounds).trail.boundaries
              ++ [(Assignments.construct bounds).trail.entries.length] } from rfl,
      construct_trail]
    exact ⟨rfl, rfl⟩
  rw [htrail.1] at he
  rw [htrail.2] at hb
  rw [synchronise_zero_domains _ (by rw [hb]; rfl), he, List.nil_append, hu]
  rfl

/-- Witness for claim C7 at a concrete input: x over [1, 5], one decision
level, posting x >= 3 and then x /= 4, all successful. -/
theorem spec_C7_trail_round_trip_witness :
    (run_solver_steps (Assignments.construct [(1, 5)]).increase_decision_level
        [.post (.lowerBound 1 3), .post (.notEqual 1 4)]).2 = true
      ∧ (((run_solver_steps (Assignments.construct [(1, 5)]).increase_decision_level
          [.post (.lowerBound 1 3), .post (.notEqual 1 4)]).1).synchronise 0).1.domains
        = (Assignments.construct [(1, 5)]).domains :=
  ⟨by decide,
    spec_C7_trail_round_trip [(1, 5)] [.post (.lowerBound 1 3), .post (.notEqual 1 4)]
      (by decide)⟩

/-! Helper lemmas about the advance loops and the bounds after an update,
used for claims C3 and C4. -/

theorem advance_up_go_ge (holes : List (Int × PairDecisionLevelTrailPosition)) (ub : Int) :
    ∀ (fuel : Nat) (lb : Int), lb ≤ advance_up_go holes ub fuel lb := by
  intro fuel
  induction fuel with
  | zero => intro lb; exact le_refl lb
  | succ n ih =>
      intro lb
      unfold advance_up_go
      split_ifs with hcond
      · exact le_trans (by omega) (ih (lb + 1))
      · exact le_refl lb

theorem advance_past_holes_up_ge (holes : List (Int × PairDecisionLevelTrailPosition))
    (ub lb : Int) : lb ≤ advance_past_holes_up holes ub lb :=
  advance_up_go_ge holes ub _ lb

theorem advance_down_go_le (holes : List (Int × PairDecisionLevelTrailPosition)) (lb : Int) :
    ∀ (fuel : Nat) (ub : Int), advance_down_go holes lb fuel ub ≤ ub := by
  intro fuel
  induction fuel with
  | zero => intro ub; exact le_refl ub
  | succ n ih =>
      intro ub
      unfold advance_down_go
      split_ifs with hcond
      · exact le_trans (ih (ub - 1)) (by omega)
      · exact le_refl ub

theorem advance_past_holes_down_le (holes : List (Int × PairDecisionLevelTrailPosition))
    (lb ub : Int) : advance_past_holes_down holes lb ub ≤ ub :=
  advance_down_go_le holes lb _ ub

theorem advance_past_holes_up_not_hole (holes : List (Int × PairDecisionLevelTrailPosition))
    (ub lb : Int) (h : alookup holes lb = none) :
    advance_past_holes_up holes ub lb = lb := by
  unfold advance_past_holes_up
  cases (ub + 1 - lb).toNat with
  | zero => rfl
  | succ n => simp [advance_up_go, h]

theorem advance_past_holes_down_not_hole (holes : List (Int × PairDecisionLevelTrailPosition))
    (lb ub : Int) (h : alookup holes ub = none) :
    advance_past_holes_down holes lb ub = ub := by
  unfold advance_past_holes_down
  cases (ub + 1 - lb).toNat with
  | zero => rfl
  | succ n => simp [advance_down_go, h]

theorem lower_bound_append_ubu (d : IntegerDomain) (u : BoundUpdateInfo) :
    ({ d with upper_bound_updates := d.upper_bound_updates ++ [u] }
      : IntegerDomain).lower_bound = d.lower_bound := rfl

theorem upper_bound_append_ubu (d : IntegerDomain) (u : BoundUpdateInfo) :
    ({ d with upper_bound_updates := d.upper_bound_updates ++ [u] }
      : IntegerDomain).upper_bound = u.bound := by
  unfold IntegerDomain.upper_bound
  rw [List.getLast?_concat]

theorem upper_bound_append_lbu (d : IntegerDomain) (u : BoundUpdateInfo) :
    ({ d with lower_bound_updates := d.lower_bound_updates ++ [u] }
      : IntegerDomain).upper_bound = d.upper_bound := rfl

theorem lower_bound_append_lbu (d : IntegerDomain) (u : BoundUpdateInfo) :
    ({ d with lower_bound_updates := d.lower_bound_updates ++ [u] }
      : IntegerDomain).lower_bound = u.bound := by
  unfold IntegerDomain.lower_bound
  rw [List.getLast?_concat]

theorem dummy_lower_bound : IntegerDomain.dummy.lower_bound = 0 := rfl

theorem dummy_upper_bound : IntegerDomain.dummy.upper_bound = 0 := rfl

/-- A predicate that evaluates to unknown necessarily concerns a domain that
is present in the store: the out-of-range stand-in [0, 0] decides every
predicate. -/
theorem eval_none_in_range (a : Assignments) (p : Predicate)
    (h : a.evaluate_predicate p = none) : p.get_domain < a.domains.length := by
  by_contra hc
  rw [not_lt] at hc
  have hd := list_getD_out_of_range a.domains p.get_domain IntegerDomain.dummy hc
  cases p with
  | lowerBound d k =>
      unfold Assignments.evaluate_predicate Assignments.get_lower_bound
        Assignments.get_upper_bound at h
      dsimp only at h
      rw [show (Predicate.lowerBound d k).get_domain = d from rfl] at hd
      rw [hd, dummy_lower_bound, dummy_upper_bound] at h
      split_ifs at h <;> simp_all <;> omega
  | upperBound d k =>
      unfold Assignments.evaluate_predicate Assignments.get_lower_bound
        Assignments.get_upper_bound at h
      dsimp only at h
      rw [show (Predicate.upperBound d k).get_domain = d from rfl] at hd
      rw [hd, dummy_lower_bound, dummy_upper_bound] at h
      split_ifs at h <;> simp_all <;> omega
  | notEqual d k =>
      unfold Assignments.evaluate_predicate Assignments.is_value_in_domain
        Assignments.get_assigned_value Assignments.is_domain_assigned
        Assignments.get_lower_bound Assignments.get_upper_bound at h
      dsimp only at h
      rw [show (Predicate.notEqual d k).get_domain = d from rfl] at hd
      rw [hd] at h
      simp [IntegerDomain.contains, dummy_lower_bound, dummy_upper_bound,
        IntegerDomain.dummy, IntegerDomain.new, alookup] at h
      split_ifs at h <;>
        simp_all [IntegerDomain.lower_bound, IntegerDomain.upper_bound]
  | equal d k =>
      unfold Assignments.evaluate_predicate Assignments.is_value_in_domain
        Assignments.get_assigned_value Assignments.is_domain_assigned
        Assignments.get_lower_bound Assignments.get_upper_bound at h
      dsimp only at h
      rw [show (Predicate.equal d k).get_domain = d from rfl] at hd
      rw [hd] at h
      simp [IntegerDomain.contains, dummy_lower_bound, dummy_upper_bound,
        IntegerDomain.dummy, IntegerDomain.new, alookup] at h
      split_ifs at h <;>
        simp_all [IntegerDomain.lower_bound, IntegerDomain.upper_bound]



theorem set_lower_bound_holes (d : IntegerDomain) (nb : Int) (dl tp : Nat)
    (ev : EventSink) : (d.set_lower_bound nb dl tp ev).1.holes = d.holes := by
  unfold IntegerDomain.set_lower_bound
  split_ifs <;> rfl

theorem set_upper_bound_holes (d : IntegerDomain) (nb : Int) (dl tp : Nat)
    (ev : EventSink) : (d.set_upper_bound nb dl tp ev).1.holes = d.holes := by
  unfold IntegerDomain.set_upper_bound
  split_ifs <;> rfl

theorem remove_value_holes (d : IntegerDomain) (v : Int) (dl tp : Nat) (ev : EventSink)
    (hlb : d.lower_bound ≤ v) (hub : v ≤ d.upper_bound)
    (hlook : alookup d.holes v = none) :
    ((d.remove_value v dl tp ev).1).holes = d.holes ++ [(v, ⟨dl, tp⟩)] := by
  have hguard : ¬(v < d.lower_bound ∨ d.upper_bound < v
      ∨ (alookup d.holes v).isSome = true) := by
    push_neg
    exact ⟨by omega, by omega, by simp [hlook]⟩
  unfold IntegerDomain.remove_value
  rw [if_neg hguard]
  dsimp only
  cases htlb : d.lower_bound == v <;> cases htub : d.upper_bound == v <;>
    simp only [htlb, htub, Bool.false_eq_true, ite_false, ite_true, eq_self_iff_true] <;>
    simp only [set_lower_bound_holes, set_upper_bound_holes]

theorem tighten_lower_result (a : Assignments) (dId : Nat) (v : Int) (r : Option Reason)
    (hd : dId < a.domains.length)
    (hguard : a.get_lower_bound dId < v)
    (hlook : alookup (a.domains.getD dId .dummy).holes v = none)
    (hub : v ≤ (a.domains.getD dId .dummy).upper_bound) :
    (a.tighten_lower_bound dId v r).1.domains.getD dId .dummy
        = { a.domains.getD dId .dummy with
            lower_bound_updates := (a.domains.getD dId .dummy).lower_bound_updates
              ++ [⟨v, a.get_decision_level, a.trail.entries.length⟩] }
      ∧ (a.tighten_lower_bound dId v r).2 = .ok := by
  rw [tighten_lower_bound_strong a dId v r (by omega)]
  dsimp only
  rw [list_getD_set_self _ _ _ _ hd]
  rw [set_lower_bound_fst _ _ _ _ _ (by
    unfold Assignments.get_lower_bound at hguard
    omega)]
  rw [advance_past_holes_up_not_hole _ _ _ hlook]
  refine ⟨rfl, ?_⟩
  unfold IntegerDomain.verify_consistency
  rw [lower_bound_append_lbu, upper_bound_append_lbu]
  dsimp only
  rw [if_neg (by omega)]

theorem tighten_upper_result (a : Assignments) (dId : Nat) (v : Int) (r : Option Reason)
    (hd : dId < a.domains.length)
    (hguard : a.get_upper_bound dId > v)
    (hlook : alookup (a.domains.getD dId .dummy).holes v = none)
    (hlb : (a.domains.getD dId .dummy).lower_bound ≤ v) :
    (a.tighten_upper_bound dId v r).1.domains.getD dId .dummy
        = { a.domains.getD dId .dummy with
            upper_bound_updates := (a.domains.getD dId .dummy).upper_bound_updates
              ++ [⟨v, a.get_decision_level, a.trail.entries.length⟩] }
      ∧ (a.tighten_upper_bound dId v r).2 = .ok := by
  rw [tighten_upper_bound_strong a dId v r (by omega)]
  dsimp only
  rw [list_getD_set_self _ _ _ _ hd]
  rw [set_upper_bound_fst _ _ _ _ _ (by
    unfold Assignments.get_upper_bound at hguard
    omega)]
  rw [advance_past_holes_down_not_hole _ _ _ hlook]
  refine ⟨rfl, ?_⟩
  unfold IntegerDomain.verify_consistency
  rw [lower_bound_append_ubu, upper_bound_append_ubu]
  dsimp only
  rw [if_neg (by omega)]

theorem tighten_lower_bound_domains_length (a : Assignments) (dId : Nat) (v : Int)
    (r : Option Reason) :
    (a.tighten_lower_bound dId v r).1.domains.length = a.domains.length := by
  by_cases hg : v ≤ a.get_lower_bound dId
  · rw [tighten_lower_bound_weak _ _ _ _ hg]
  · rw [tighten_lower_bound_strong _ _ _ _ hg]
    exact List.length_set _ _ _

theorem make_assignment_domain (a : Assignments) (dId : Nat) (v : Int) (r : Option Reason)
    (hd : dId < a.domains.length)
    (hlb : (a.domains.getD dId .dummy).lower_bound ≤ v)
    (hub : v ≤ (a.domains.getD dId .dummy).upper_bound)
    (hlook : alookup (a.domains.getD dId .dummy).holes v = none)
    (hne : (a.domains.getD dId .dummy).lower_bound
      ≠ (a.domains.getD dId .dummy).upper_bound) :
    ((a.make_assignment dId v r).1.domains.getD dId .dummy).lower_bound = v
      ∧ ((a.make_assignment dId v r).1.domains.getD dId .dummy).upper_bound = v
      ∧ alookup ((a.make_assignment dId v r).1.domains.getD dId .dummy).holes v = none := by
  unfold Assignments.make_assignment
  dsimp only
  by_cases hc1 : a.get_lower_bound dId < v
  · obtain ⟨hdom1, hok1⟩ := tighten_lower_result a dId v r hd hc1 hlook hub
    rw [if_pos hc1, hok1]
    dsimp only
    have hmidub : (a.tighten_lower_bound dId v r).1.get_upper_bound dId
        = (a.domains.getD dId .dummy).upper_bound := by
      unfold Assignments.get_upper_bound
      rw [hdom1, upper_bound_append_lbu]
    have hmidlen : dId < (a.tighten_lower_bound dId v r).1.domains.length := by
      rw [tighten_lower_bound_domains_length]
      exact hd
    by_cases hc2 : (a.tighten_lower_bound dId v r).1.get_upper_bound dId > v
    · obtain ⟨hdom2, hok2⟩ := tighten_upper_result (a.tighten_lower_bound dId v r).1
        dId v r hmidlen hc2 (by rw [hdom1]; exact hlook)
        (by rw [hdom1, lower_bound_append_lbu])
      rw [if_pos hc2, hok2]
      dsimp only
      rw [hdom2, hdom1]
      refine ⟨?_, ?_, ?_⟩
      · rw [lower_bound_append_ubu, lower_bound_append_lbu]
      · rw [upper_bound_append_ubu]
      · exact hlook
    · rw [if_neg hc2]
      dsimp only
      rw [hdom1]
      refine ⟨by rw [lower_bound_append_lbu], ?_, hlook⟩
      rw [upper_bound_append_lbu]
      rw [hmidub] at hc2
      omega
  · rw [if_neg hc1]
    dsimp only
    have hlbv : (a.domains.getD dId .dummy).lower_bound = v := by
      unfold Assignments.get_lower_bound at hc1
      omega
    by_cases hc2 : a.get_upper_bound dId > v
    · obtain ⟨hdom2, hok2⟩ := tighten_upper_result a dId v r hd hc2 hlook hlb
      rw [if_pos hc2, hok2]
      dsimp only
      rw [hdom2]
      exact ⟨by rw [lower_bound_append_ubu, hlbv], by rw [upper_bound_append_ubu], hlook⟩
    · exfalso
      unfold Assignments.get_upper_bound at hc2
      omega
theorem post_negate_falsifies (a : Assignments) (p : Predicate) (r : Option Reason)
    (h : a.evaluate_predicate p = none) :
    (a.post_predicate p.negate r).1.evaluate_predicate p = some false := by
  have hin := eval_none_in_range a p h
  cases p with
  | lowerBound d k =>
      have hd : d < a.domains.length := by simpa using hin
      unfold Assignments.evaluate_predicate at h
      dsimp only at h
      have hlbk : ¬(a.get_lower_bound d ≥ k) := by
        intro hge
        rw [if_pos hge] at h
        exact Option.noConfusion h
      have hubk : ¬(a.get_upper_bound d < k) := by
        intro hlt
        rw [if_neg hlbk, if_pos hlt] at h
        exact Option.noConfusion h
      show ((a.tighten_upper_bound d (k - 1) r).1).evaluate_predicate
        (.lowerBound d k) = some false
      rw [tighten_upper_bound_strong a d (k - 1) r (by omega)]
      unfold Assignments.evaluate_predicate
      dsimp only
      unfold Assignments.get_lower_bound Assignments.get_upper_bound
      dsimp only
      rw [list_getD_set_self _ _ _ _ hd]
      rw [set_upper_bound_fst _ _ _ _ _ (by
        unfold Assignments.get_upper_bound at hubk
        omega)]
      rw [lower_bound_append_ubu, upper_bound_append_ubu]
      have hadv := advance_past_holes_down_le
        (a.domains.getD d IntegerDomain.dummy).holes
        (a.domains.getD d IntegerDomain.dummy).lower_bound (k - 1)
      rw [if_neg (by unfold Assignments.get_lower_bound at hlbk; omega),
        if_pos (by dsimp only; omega)]
  | upperBound d k =>
      have hd : d < a.domains.length := by simpa using hin
      unfold Assignments.evaluate_predicate at h
      dsimp only at h
      have hubk : ¬(a.get_upper_bound d ≤ k) := by
        intro hge
        rw [if_pos hge] at h
        exact Option.noConfusion h
      have hlbk : ¬(a.get_lower_bound d > k) := by
        intro hlt
        rw [if_neg hubk, if_pos hlt] at h
        exact Option.noConfusion h
      show ((a.tighten_lower_bound d (k + 1) r).1).evaluate_predicate
        (.upperBound d k) = some false
      rw [tighten_lower_bound_strong a d (k + 1) r (by omega)]
      unfold Assignments.evaluate_predicate
      dsimp only
      unfold Assignments.get_lower_bound Assignments.get_upper_bound
      dsimp only
      rw [list_getD_set_self _ _ _ _ hd]
      rw [set_lower_bound_fst _ _ _ _ _ (by
        unfold Assignments.get_lower_bound at hlbk
        omega)]
      rw [upper_bound_append_lbu, lower_bound_append_lbu]
      have hadv := advance_past_holes_up_ge
        (a.domains.getD d IntegerDomain.dummy).holes
        (a.domains.getD d IntegerDomain.dummy).upper_bound (k + 1)
      rw [if_neg (by unfold Assignments.get_upper_bound at hubk; omega),
        if_pos (by dsimp only; omega)]
  | equal d k =>
      have hd : d < a.domains.length := by simpa using hin
      unfold Assignments.evaluate_predicate at h
      dsimp only at h
      have hcont : a.is_value_in_domain d k = true := by
        by_cases hc : (!(a.is_value_in_domain d k)) = true
        · rw [if_pos hc] at h
          exact Option.noConfusion h
        · simpa using hc
      rw [if_neg (by simp [hcont])] at h
      have hcont2 : (a.domains.getD d .dummy).contains k = true := hcont
      have hparts := hcont2
      unfold IntegerDomain.contains at hparts
      simp only [Bool.and_eq_true, decide_eq_true_eq, Option.isNone_iff_eq_none] at hparts
      obtain ⟨⟨hlbk, hubk⟩, hlook⟩ := hparts
      show ((a.remove_value_from_domain d k r).1).evaluate_predicate
        (.equal d k) = some false
      rw [remove_value_strong a d k r hcont2]
      unfold Assignments.evaluate_predicate
      dsimp only
      unfold Assignments.is_value_in_domain
      dsimp only
      rw [list_getD_set_self _ _ _ _ hd]
      have hholes := remove_value_holes (a.domains.getD d .dummy) k
        a.get_decision_level a.trail.entries.length a.events hlbk hubk hlook
      have hcfalse : ((a.domains.getD d .dummy).remove_value k
          a.get_decision_level a.trail.entries.length a.events).1.contains k = false := by
        unfold IntegerDomain.contains
        rw [hholes, alookup_append_of_none _ _ _ hlook]
        simp [alookup]
      rw [hcfalse]
      simp
  | notEqual d k =>
      have hd : d < a.domains.length := by simpa using hin
      unfold Assignments.evaluate_predicate at h
      dsimp only at h
      have hcont : a.is_value_in_domain d k = true := by
        by_cases hc : (!(a.is_value_in_domain d k)) = true
        · rw [if_pos hc] at h
          exact Option.noConfusion h
        · simpa using hc
      rw [if_neg (by simp [hcont])] at h
      have hass : (a.get_assigned_value d).isSome = false := by
        by_cases hc2 : (a.get_assigned_value d).isSome = true
        · rw [if_pos hc2] at h
          exact Option.noConfusion h
        · simpa using hc2
      have hcont2 : (a.domains.getD d .dummy).contains k = true := hcont
      unfold IntegerDomain.contains at hcont2
      simp only [Bool.and_eq_true, decide_eq_true_eq, Option.isNone_iff_eq_none] at hcont2
      obtain ⟨⟨hlbk, hubk⟩, hlook⟩ := hcont2
      have hne : (a.domains.getD d .dummy).lower_bound
          ≠ (a.domains.getD d .dummy).upper_bound := by
        intro heq
        unfold Assignments.get_assigned_value Assignments.is_domain_assigned
          Assignments.get_lower_bound Assignments.get_upper_bound at hass
        rw [heq] at hass
        simp at hass
      obtain ⟨hl, hu, hh⟩ := make_assignment_domain a d k r hd hlbk hubk hlook hne
      show ((a.make_assignment d k r).1).evaluate_predicate
        (.notEqual d k) = some false
      unfold Assignments.evaluate_predicate
      dsimp only
      have hcv : (a.make_assignment d k r).1.is_value_in_domain d k = true := by
        unfold Assignments.is_value_in_domain IntegerDomain.contains
        rw [hl, hu, hh]
        simp
      rw [if_neg (by simp [hcv])]
      have hav : ((a.make_assignment d k r).1.get_assigned_value d).isSome = true := by
        unfold Assignments.get_assigned_value Assignments.is_domain_assigned
          Assignments.get_lower_bound Assignments.get_upper_bound
        rw [hl, hu]
        simp
      rw [if_pos hav]


theorem modify_nogood_length (ns : List Nogood) (i : Nat) (f : Nogood → Nogood) :
    (modify_nogood ns i f).length = ns.length := by
  unfold modify_nogood
  cases hg : ns.get? i
  · rfl
  · simp

theorem modify_nogood_getD_self (ns : List Nogood) (i : Nat) (f : Nogood → Nogood)
    (h : i < ns.length) : (modify_nogood ns i f).getD i {} = f (ns.getD i {}) := by
  unfold modify_nogood
  cases hg : ns.get? i with
  | none =>
      exact absurd (List.get?_eq_none.1 hg) (Nat.not_le_of_lt h)
  | some n =>
      rw [list_getD_set_self _ _ _ _ h, list_getD_eq_get?, hg]
      rfl

theorem modify_nogood_getD_proj {α : Type} (g : Nogood → α) (ns : List Nogood) (i : Nat)
    (f : Nogood → Nogood) (hf : ∀ n, g (f n) = g n) (j : Nat) :
    g ((modify_nogood ns i f).getD j {}) = g (ns.getD j {}) := by
  unfold modify_nogood
  cases hg : ns.get? i with
  | none => rfl
  | some n =>
      by_cases hij : i = j
      · subst hij
        rw [list_getD_set_self _ _ _ _ (list_get?_some_lt hg), hf, list_getD_eq_get?, hg]
        rfl
      · rw [list_getD_set_ne _ _ _ hij]

theorem foldl_modify_getD_proj {α : Type} (g : Nogood → α) (step : Nogood → Nogood)
    (hstep : ∀ n, g (step n) = g n) (ids : List Nat) (ns : List Nogood) (j : Nat) :
    g ((ids.foldl (fun ms i => modify_nogood ms i step) ns).getD j {}) = g (ns.getD j {}) := by
  induction ids generalizing ns with
  | nil => rfl
  | cons i t ih =>
      rw [List.foldl_cons, ih, modify_nogood_getD_proj g _ _ _ hstep j]

theorem foldl_modify_length (step : Nogood → Nogood) (ids : List Nat) (ns : List Nogood) :
    (ids.foldl (fun ms i => modify_nogood ms i step) ns).length = ns.length := by
  induction ids generalizing ns with
  | nil => rfl
  | cons i t ih => rw [List.foldl_cons, ih, modify_nogood_length]

theorem hf_block_pred : ∀ n : Nogood,
    ({ n with block_bumps := true } : Nogood).predicates = n.predicates := fun _ => rfl

theorem hf_bump_pred (inc : Rat) : ∀ n : Nogood,
    ({ n with activity := n.activity + inc } : Nogood).predicates = n.predicates := fun _ => rfl

theorem hf_decay_pred (m : Rat) : ∀ n : Nogood,
    ({ n with activity := n.activity / m } : Nogood).predicates = n.predicates := fun _ => rfl

theorem hf_protect_pred (c : Nat) : ∀ n : Nogood,
    ((if c ≤ 30 then
        { predicates := n.predicates, is_learned := n.is_learned, lbd := c,
          is_protected := true, is_deleted := n.is_deleted,
          block_bumps := n.block_bumps, activity := n.activity }
      else
        { predicates := n.predicates, is_learned := n.is_learned, lbd := c,
          is_protected := n.is_protected, is_deleted := n.is_deleted,
          block_bumps := n.block_bumps, activity := n.activity } : Nogood)).predicates
      = n.predicates := by
  intro n
  split_ifs <;> rfl

theorem hf_setlbd_protect (c : Nat) : ∀ n : Nogood,
    ({ predicates := n.predicates, is_learned := n.is_learned, lbd := c,
       is_protected := true, is_deleted := n.is_deleted,
       block_bumps := n.block_bumps, activity := n.activity } : Nogood).predicates
      = n.predicates := fun _ => rfl

theorem hf_setlbd (c : Nat) : ∀ n : Nogood,
    ({ predicates := n.predicates, is_learned := n.is_learned, lbd := c,
       is_protected := n.is_protected, is_deleted := n.is_deleted,
       block_bumps := n.block_bumps, activity := n.activity } : Nogood).predicates
      = n.predicates := fun _ => rfl

theorem hp_bump (inc : Rat) : ∀ n : Nogood,
    ({ n with activity := n.activity + inc } : Nogood).is_protected = n.is_protected :=
  fun _ => rfl

theorem hp_decay (m : Rat) : ∀ n : Nogood,
    ({ n with activity := n.activity / m } : Nogood).is_protected = n.is_protected :=
  fun _ => rfl

/-- The second component of lazy_explanation is the tail of the stored nogood:
the activity and protection bookkeeping never touches the predicate list. -/
theorem lazy_explanation_snd (np : NogoodPropagator) (code : Nat) (a : Assignments) :
    (np.lazy_explanation code a).2 = (np.nogoods.getD code {}).predicates.drop 1 := by
  unfold NogoodPropagator.lazy_explanation
  dsimp only
  split_ifs <;>
    (repeat first
      | rfl
      | rw [modify_nogood_getD_proj Nogood.predicates _ _ _ hf_block_pred code]
      | rw [modify_nogood_getD_proj Nogood.predicates _ _ _ (hf_bump_pred _) code]
      | rw [modify_nogood_getD_proj Nogood.predicates _ _ _ (hf_decay_pred _) code]
      | rw [modify_nogood_getD_proj Nogood.predicates _ _ _ (hf_protect_pred _) code]
      | rw [modify_nogood_getD_proj Nogood.predicates _ _ _ (hf_setlbd_protect _) code]
      | rw [modify_nogood_getD_proj Nogood.predicates _ _ _ (hf_setlbd _) code]
      | rw [foldl_modify_getD_proj Nogood.predicates _ (hf_decay_pred _) _ _ code])

theorem store_nogood_getD (nogoods : List Nogood) (delete_ids : List Nat) (n : Nogood)
    (hdel : ∀ i ∈ delete_ids, i < nogoods.length) :
    (store_nogood nogoods delete_ids n).2.2 = (delete_ids.getLast?).getD nogoods.length
    ∧ (store_nogood nogoods delete_ids n).1.getD
        ((delete_ids.getLast?).getD nogoods.length) {} = n := by
  unfold store_nogood
  cases hdl : delete_ids.getLast? with
  | none => exact ⟨rfl, list_getD_append_length _ _ _⟩
  | some r =>
      refine ⟨rfl, ?_⟩
      have hrmem : r ∈ delete_ids := by
        obtain ⟨hne, hx⟩ := List.mem_getLast?_eq_getLast
          (show r ∈ delete_ids.getLast? by rw [hdl]; rfl)
        rw [hx]
        exact List.getLast_mem hne
      exact list_getD_set_self _ _ _ _ (hdel r hrmem)

theorem hp_setlbd_protect (c : Nat) : ∀ n : Nogood,
    ({ predicates := n.predicates, is_learned := n.is_learned, lbd := c,
       is_protected := true, is_deleted := n.is_deleted,
       block_bumps := n.block_bumps, activity := n.activity } : Nogood).is_protected
      = true := fun _ => rfl

/-- When the recomputed LBD improves on the stored one and is at most 30,
lazy_explanation leaves the nogood protected. -/
theorem lazy_explanation_protects (np : NogoodPropagator) (c : Nat) (a : Assignments)
    (hlen : c < np.nogoods.length)
    (hb : (np.nogoods.getD c {}).block_bumps = false)
    (hl : (np.nogoods.getD c {}).is_learned = true)
    (hthr : np.parameters.lbd_threshold < (np.nogoods.getD c {}).lbd)
    (himp : compute_lbd ((np.nogoods.getD c {}).predicates.drop 1) a
      < (np.nogoods.getD c {}).lbd)
    (h30 : compute_lbd ((np.nogoods.getD c {}).predicates.drop 1) a ≤ 30) :
    ((np.lazy_explanation c a).1.nogoods.getD c {}).is_protected = true := by
  unfold NogoodPropagator.lazy_explanation
  dsimp only
  rw [if_pos (show (!(np.nogoods.getD c {}).block_bumps
      && (np.nogoods.getD c {}).is_learned
      && decide (np.parameters.lbd_threshold < (np.nogoods.getD c {}).lbd)) = true by
    rw [hb, hl]
    simp only [Bool.not_false, Bool.true_and, decide_eq_true_eq]
    exact hthr)]
  dsimp only
  rw [modify_nogood_getD_self np.nogoods c _ hlen]
  dsimp only
  rw [if_pos himp]
  dsimp only
  split_ifs
  all_goals first
    | exact absurd h30 (by assumption)
    | (repeat first
        | rfl
        | rw [modify_nogood_getD_proj Nogood.is_protected _ _ _ (hp_bump _) c]
        | rw [foldl_modify_getD_proj Nogood.is_protected _ (hp_decay _) _ _ c]
        | rw [modify_nogood_getD_self _ c _ (by
            first
              | exact hlen
              | (rw [modify_nogood_length]; exact hlen))])

theorem add_watcher_nogoods (np : NogoodPropagator) (p : Predicate) (i : Nat) :
    (np.add_watcher p i).nogoods = np.nogoods := by
  unfold NogoodPropagator.add_watcher
  dsimp only
  split_ifs <;> rfl

/-- Shape of add_asserting_nogood for a nogood longer than one predicate: the
database is the stored one and the returned assignments are the result of
posting the negation of the stored predicate 0 with the fresh id as lazy
reason. -/
theorem add_asserting_shape (np : NogoodPropagator)
    (minimise : List Predicate → List Predicate) (a : Assignments)
    (nogood : List Predicate) (h2 : (nogood.length == 1) = false) :
    (np.add_asserting_nogood minimise a nogood).1.nogoods
        = (store_nogood np.nogoods np.delete_ids
            (Nogood.new_learned_nogood nogood (compute_lbd (nogood.drop 1) a))).1
    ∧ (np.add_asserting_nogood minimise a nogood).2
        = (a.post_predicate
            (((store_nogood np.nogoods np.delete_ids
                (Nogood.new_learned_nogood nogood
                  (compute_lbd (nogood.drop 1) a))).1.getD
              (store_nogood np.nogoods np.delete_ids
                (Nogood.new_learned_nogood nogood
                  (compute_lbd (nogood.drop 1) a))).2.2 {}).predicates.getD
              0 .trivially_true).negate
            (some (.dynamicLazy (store_nogood np.nogoods np.delete_ids
              (Nogood.new_learned_nogood nogood
                (compute_lbd (nogood.drop 1) a))).2.2))).1 := by
  unfold NogoodPropagator.add_asserting_nogood
  rw [if_neg (by simp [h2])]
  dsimp only
  constructor
  · split_ifs <;> dsimp only <;> rw [add_watcher_nogoods, add_watcher_nogoods]
  · dsimp only
    simp only [add_watcher_nogoods]

/-- C3: lazy_explanation returns exactly the stored nogood's tail
predicates[1..]; immediately after add_asserting_nogood with a nogood of
length at least 2 whose predicate 0 is unassigned, the nogood is stored under
the fresh id, the negation of predicate 0 is posted with that id as lazy
reason (so predicate 0 evaluates to false afterwards) and the lazy explanation
for that id is the nogood's tail; and when lazy_explanation recomputes an
improved LBD of at most 30 for a bumpable learned nogood, the nogood is marked
protected. -/
theorem spec_C3_lazy_reason_and_asserting (np : NogoodPropagator)
    (minimise : List Predicate → List Predicate) (a : Assignments)
    (nogood : List Predicate) (code : Nat)
    (h2 : 2 ≤ nogood.length)
    (heval : a.evaluate_predicate (nogood.getD 0 .trivially_true) = none)
    (hdel : ∀ i ∈ np.delete_ids, i < np.nogoods.length) :
    (np.lazy_explanation code a).2 = (np.nogoods.getD code {}).predicates.drop 1
    ∧ ((np.add_asserting_nogood minimise a nogood).1.nogoods.getD
          ((np.delete_ids.getLast?).getD np.nogoods.length) {}).predicates = nogood
    ∧ (np.add_asserting_nogood minimise a nogood).2
        = (a.post_predicate (nogood.getD 0 .trivially_true).negate
            (some (.dynamicLazy ((np.delete_ids.getLast?).getD np.nogoods.length)))).1
    ∧ (np.add_asserting_nogood minimise a nogood).2.evaluate_predicate
        (nogood.getD 0 .trivially_true) = some false
    ∧ (∀ a2 : Assignments,
        ((np.add_asserting_nogood minimise a nogood).1.lazy_explanation
          ((np.delete_ids.getLast?).getD np.nogoods.length) a2).2 = nogood.drop 1)
    ∧ (code < np.nogoods.length →
        (np.nogoods.getD code {}).block_bumps = false →
        (np.nogoods.getD code {}).is_learned = true →
        np.parameters.lbd_threshold < (np.nogoods.getD code {}).lbd →
        compute_lbd ((np.nogoods.getD code {}).predicates.drop 1) a
          < (np.nogoods.getD code {}).lbd →
        compute_lbd ((np.nogoods.getD code {}).predicates.drop 1) a ≤ 30 →
        ((np.lazy_explanation code a).1.nogoods.getD code {}).is_protected = true) := by
  have hne1 : (nogood.length == 1) = false := by
    simp only [beq_eq_false_iff_ne, ne_eq]
    omega
  obtain ⟨hid, hstored⟩ := store_nogood_getD np.nogoods np.delete_ids
    (Nogood.new_learned_nogood nogood (compute_lbd (nogood.drop 1) a)) hdel
  obtain ⟨hshape1, hshape2⟩ := add_asserting_shape np minimise a nogood hne1
  refine ⟨lazy_explanation_snd np code a, ?_, ?_, ?_, ?_, ?_⟩
  · rw [hshape1, hstored]
    rfl
  · rw [hshape2, hid, hstored]
    rfl
  · rw [hshape2, hid, hstored]
    exact post_negate_falsifies a (nogood.getD 0 .trivially_true) _ heval
  · intro a2
    rw [lazy_explanation_snd, hshape1, hstored]
    rfl
  · intro hlen hb hl hthr himp h30
    exact lazy_explanation_protects np code a hlen hb hl hthr himp h30

/-- Witness for C3 at a concrete propagator state. -/
theorem spec_C3_lazy_reason_and_asserting_witness :
    (({} : NogoodPropagator).lazy_explanation 0 (Assignments.construct [(1, 10), (1, 10)])).2
        = ((({} : NogoodPropagator).nogoods.getD 0 {}).predicates.drop 1)
    ∧ ((({} : NogoodPropagator).add_asserting_nogood (fun ng => ng)
          (Assignments.construct [(1, 10), (1, 10)])
          [.lowerBound 1 5, .upperBound 2 4]).1.nogoods.getD
          ((({} : NogoodPropagator).delete_ids.getLast?).getD
            ({} : NogoodPropagator).nogoods.length) {}).predicates
        = [.lowerBound 1 5, .upperBound 2 4]
    ∧ (({} : NogoodPropagator).add_asserting_nogood (fun ng => ng)
          (Assignments.construct [(1, 10), (1, 10)])
          [.lowerBound 1 5, .upperBound 2 4]).2
        = ((Assignments.construct [(1, 10), (1, 10)]).post_predicate
            (([.lowerBound 1 5, .upperBound 2 4].getD 0 .trivially_true) :
              Predicate).negate
            (some (.dynamicLazy ((({} : NogoodPropagator).delete_ids.getLast?).getD
              ({} : NogoodPropagator).nogoods.length)))).1
    ∧ (({} : NogoodPropagator).add_asserting_nogood (fun ng => ng)
          (Assignments.construct [(1, 10), (1, 10)])
          [.lowerBound 1 5, .upperBound 2 4]).2.evaluate_predicate
          ([.lowerBound 1 5, .upperBound 2 4].getD 0 .trivially_true) = some false
    ∧ (∀ a2 : Assignments,
        ((({} : NogoodPropagator).add_asserting_nogood (fun ng => ng)
            (Assignments.construct [(1, 10), (1, 10)])
            [.lowerBound 1 5, .upperBound 2 4]).1.lazy_explanation
          ((({} : NogoodPropagator).delete_ids.getLast?).getD
            ({} : NogoodPropagator).nogoods.length) a2).2
          = [.lowerBound 1 5, .upperBound 2 4].drop 1)
    ∧ (0 < ({} : NogoodPropagator).nogoods.length →
        ((({} : NogoodPropagator).nogoods.getD 0 {}).block_bumps = false) →
        ((({} : NogoodPropagator).nogoods.getD 0 {}).is_learned = true) →
        ({} : NogoodPropagator).parameters.lbd_threshold
          < (({} : NogoodPropagator).nogoods.getD 0 {}).lbd →
        compute_lbd ((({} : NogoodPropagator).nogoods.getD 0 {}).predicates.drop 1)
            (Assignments.construct [(1, 10), (1, 10)])
          < (({} : NogoodPropagator).nogoods.getD 0 {}).lbd →
        compute_lbd ((({} : NogoodPropagator).nogoods.getD 0 {}).predicates.drop 1)
            (Assignments.construct [(1, 10), (1, 10)]) ≤ 30 →
        ((({} : NogoodPropagator).lazy_explanation 0
            (Assignments.construct [(1, 10), (1, 10)])).1.nogoods.getD 0 {}).is_protected
          = true) :=
  spec_C3_lazy_reason_and_asserting {} (fun ng => ng)
    (Assignments.construct [(1, 10), (1, 10)]) [.lowerBound 1 5, .upperBound 2 4] 0
    (by decide) (by decide) (by decide)

/-- C4: a nogood that preprocesses to a single predicate is not stored or
watched; instead the negation of the predicate is posted to the trail with an
empty eager reason.  Re-adding a satisfied (unavoidable) unit flags the
propagator permanently infeasible with InfeasibleNogood, a falsified unit is a
no-op, and once the propagator is in the infeasible state every add returns
InfeasibleState. -/
theorem spec_C4_unit_nogood_and_infeasible_state (np : NogoodPropagator)
    (minimise : List Predicate → List Predicate) (a : Assignments)
    (nogood : List Predicate) (p : Predicate)
    (hdl : a.get_decision_level = 0)
    (hng : nogood ≠ [])
    (hpre : preprocess_nogood minimise a nogood = [p]) :
    (np.is_in_infeasible_state = true →
      np.add_permanent_nogood minimise a nogood = (np, a, some .infeasibleState)
      ∧ (∀ (a2 : Assignments) (ng2 : List Predicate),
          (np.add_nogood minimise a2 ng2).2.2 = some .infeasibleState))
    ∧ (np.is_in_infeasible_state = false → a.is_predicate_satisfied p = true →
        np.add_permanent_nogood minimise a nogood
          = ({ np with is_in_infeasible_state := true }, a, some .infeasibleNogood))
    ∧ (np.is_in_infeasible_state = false → a.is_predicate_falsified p = true →
        np.add_permanent_nogood minimise a nogood = (np, a, none))
    ∧ (np.is_in_infeasible_state = false → a.evaluate_predicate p = none →
        (np.add_permanent_nogood minimise a nogood).1.nogoods = np.nogoods
        ∧ (np.add_permanent_nogood minimise a nogood).1.watch_lists = np.watch_lists
        ∧ (np.add_permanent_nogood minimise a nogood).2.1
            = (a.post_predicate p.negate (some (.eager []))).1
        ∧ (np.add_permanent_nogood minimise a nogood).2.1.evaluate_predicate p
            = some false) := by
  refine ⟨?_, ?_, ?_, ?_⟩
  · intro hinf
    refine ⟨?_, ?_⟩
    · unfold NogoodPropagator.add_permanent_nogood
      rw [if_pos hinf]
    · intro a2 ng2
      unfold NogoodPropagator.add_nogood NogoodPropagator.add_permanent_nogood
      rw [if_pos hinf]
  · intro hinf hsat
    unfold NogoodPropagator.add_permanent_nogood
    rw [if_neg (by simp [hinf]), if_neg (by simp [hng])]
    dsimp only
    rw [hpre]
    rw [if_pos (show (([p] : List Predicate).length == 1) = true from rfl)]
    rw [show ([p].getD 0 Predicate.trivially_true) = p from rfl]
    rw [if_pos hsat]
  · intro hinf hfals
    unfold NogoodPropagator.add_permanent_nogood
    rw [if_neg (by simp [hinf]), if_neg (by simp [hng])]
    dsimp only
    rw [hpre]
    rw [if_pos (show (([p] : List Predicate).length == 1) = true from rfl)]
    rw [show ([p].getD 0 Predicate.trivially_true) = p from rfl]
    have hsat : a.is_predicate_satisfied p = false := by
      unfold Assignments.is_predicate_satisfied Assignments.is_predicate_falsified at *
      cases he : a.evaluate_predicate p
      · rfl
      · simp_all
    rw [if_neg (by rw [hsat]; simp)]
    rw [if_pos hfals]
  · intro hinf heval
    unfold NogoodPropagator.add_permanent_nogood
    rw [if_neg (by simp [hinf]), if_neg (by simp [hng])]
    dsimp only
    rw [hpre]
    rw [if_pos (show (([p] : List Predicate).length == 1) = true from rfl)]
    rw [show ([p].getD 0 Predicate.trivially_true) = p from rfl]
    have hsat : a.is_predicate_satisfied p = false := by
      unfold Assignments.is_predicate_satisfied
      rw [heval]
      rfl
    have hfals : a.is_predicate_falsified p = false := by
      unfold Assignments.is_predicate_falsified
      rw [heval]
      rfl
    rw [if_neg (by rw [hsat]; simp)]
    rw [if_neg (by rw [hfals]; simp)]
    cases hpost : (a.post_predicate p.negate (some (.eager []))).2 <;>
      dsimp only <;>
      exact ⟨rfl, rfl, rfl, post_negate_falsifies a p _ heval⟩

/-- Witness for C4 at a concrete unit nogood. -/
theorem spec_C4_unit_nogood_and_infeasible_state_witness :
    (({} : NogoodPropagator).is_in_infeasible_state = true →
      ({} : NogoodPropagator).add_permanent_nogood (fun ng => ng)
          (Assignments.construct [(1, 10)]) [.lowerBound 1 5]
        = ({}, Assignments.construct [(1, 10)], some .infeasibleState)
      ∧ (∀ (a2 : Assignments) (ng2 : List Predicate),
          ((({} : NogoodPropagator).add_nogood (fun ng => ng) a2 ng2).2.2
            = some .infeasibleState)))
    ∧ (({} : NogoodPropagator).is_in_infeasible_state = false →
        (Assignments.construct [(1, 10)]).is_predicate_satisfied (.lowerBound 1 5) = true →
        ({} : NogoodPropagator).add_permanent_nogood (fun ng => ng)
            (Assignments.construct [(1, 10)]) [.lowerBound 1 5]
          = (({ is_in_infeasible_state := true } : NogoodPropagator),
              Assignments.construct [(1, 10)], some .infeasibleNogood))
    ∧ (({} : NogoodPropagator).is_in_infeasible_state = false →
        (Assignments.construct [(1, 10)]).is_predicate_falsified (.lowerBound 1 5) = true →
        ({} : NogoodPropagator).add_permanent_nogood (fun ng => ng)
            (Assignments.construct [(1, 10)]) [.lowerBound 1 5]
          = ({}, Assignments.construct [(1, 10)], none))
    ∧ (({} : NogoodPropagator).is_in_infeasible_state = false →
        (Assignments.construct [(1, 10)]).evaluate_predicate (.lowerBound 1 5) = none →
        (({} : NogoodPropagator).add_permanent_nogood (fun ng => ng)
            (Assignments.construct [(1, 10)]) [.lowerBound 1 5]).1.nogoods
          = ({} : NogoodPropagator).nogoods
        ∧ (({} : NogoodPropagator).add_permanent_nogood (fun ng => ng)
            (Assignments.construct [(1, 10)]) [.lowerBound 1 5]).1.watch_lists
          = ({} : NogoodPropagator).watch_lists
        ∧ (({} : NogoodPropagator).add_permanent_nogood (fun ng => ng)
            (Assignments.construct [(1, 10)]) [.lowerBound 1 5]).2.1
          = ((Assignments.construct [(1, 10)]).post_predicate
              (Predicate.lowerBound 1 5).negate (some (.eager []))).1
        ∧ (({} : NogoodPropagator).add_permanent_nogood (fun ng => ng)
            (Assignments.construct [(1, 10)]) [.lowerBound 1 5]).2.1.evaluate_predicate
            (.lowerBound 1 5)
          = some false) :=
  spec_C4_unit_nogood_and_infeasible_state {} (fun ng => ng)
    (Assignments.construct [(1, 10)]) [.lowerBound 1 5] (.lowerBound 1 5)
    (by decide) (by decide) (by decide)

/-- C8 counterexample: with a stashed root-level inconsistency pending and the
reification literal unassigned, propagate records the stashed conjunction as
the reason for r := false and never consults detect_inconsistency, whose
conjunction differs. -/
theorem spec_C8_counterexample_stash_overrides_detect :
    ((⟨⟨fun u => .ok u, fun _ => some [.lowerBound 1 1]⟩, some [.lowerBound 2 2]⟩ :
        ReifiedPropagator Unit).propagate (.equal 3 1)
        ⟨none, none, ()⟩).map (fun x => (x.2.r_value, x.2.r_reason))
      = .ok (some false, some [.lowerBound 2 2])
    ∧ (⟨⟨fun u => .ok u, fun _ => some [.lowerBound 1 1]⟩, some [.lowerBound 2 2]⟩ :
        ReifiedPropagator Unit).propagator.detect_inconsistency ()
      = some [.lowerBound 1 1]
    ∧ some [Predicate.lowerBound 2 2] ≠ some [Predicate.lowerBound 1 1] := by
  refine ⟨rfl, rfl, by decide⟩

/-- C8 (amended): in a propagate call with no stashed root-level inconsistency
pending, if the reification literal is unassigned and detect_inconsistency
returns a conjunction then r is assigned false with exactly that reason, and
if the literal is true and the inner propagate raises an explicit conflict the
surfaced conflict is that conjunction with the reification predicate added.
When a stash is present, the call instead first assigns r false with the
stashed conjunction as reason. -/
theorem spec_C8_reified_propagate_amended {σ : Type} (rp : ReifiedPropagator σ)
    (r_predicate : Predicate) (s : ReifiedContext σ)
    (hstash : rp.root_level_inconsistency = none) :
    (∀ c : List Predicate, s.r_value = none →
      rp.propagator.detect_inconsistency s.inner = some c →
      rp.propagate r_predicate s
        = .ok (rp, { s with r_value := some false, r_reason := some c }))
    ∧ (∀ c : List Predicate, s.r_value = some true →
        rp.propagator.prop s.inner = .error (.conflict c) →
        rp.propagate r_predicate s = .error (.conflict (c ++ [r_predicate]))) := by
  constructor
  · intro c hrv hdet
    unfold ReifiedPropagator.propagate ReifiedPropagator.propagate_reification
      assign_literal_false
    rw [hstash]
    dsimp only
    rw [hrv]
    rw [if_neg (show ¬(((none : Option Bool) == some true) = true) by decide)]
    dsimp only
    rw [hrv]
    rw [if_pos (show ((none : Option Bool).isNone = true) by decide)]
    dsimp only
    rw [hdet]
  · intro c hrv hprop
    unfold ReifiedPropagator.propagate map_propagation_status
    rw [hstash]
    dsimp only
    rw [hrv]
    rw [if_pos (show (((some true : Option Bool)) == some true) = true by decide)]
    rw [hprop]

/-- Witness for the amended C8 statement at a concrete reified propagator. -/
theorem spec_C8_reified_propagate_amended_witness :
    (∀ c : List Predicate, (none : Option Bool) = none →
      (⟨⟨fun u => .ok u, fun _ => some [.lowerBound 1 1]⟩, none⟩ :
        ReifiedPropagator Unit).propagator.detect_inconsistency () = some c →
      (⟨⟨fun u => .ok u, fun _ => some [.lowerBound 1 1]⟩, none⟩ :
          ReifiedPropagator Unit).propagate (.equal 3 1) ⟨none, none, ()⟩
        = .ok (⟨⟨fun u => .ok u, fun _ => some [.lowerBound 1 1]⟩, none⟩,
            { (⟨none, none, ()⟩ : ReifiedContext Unit) with
                r_value := some false, r_reason := some c }))
    ∧ (∀ c : List Predicate, (none : Option Bool) = some true →
        (⟨⟨fun u => .ok u, fun _ => some [.lowerBound 1 1]⟩, none⟩ :
          ReifiedPropagator Unit).propagator.prop () = .error (.conflict c) →
        (⟨⟨fun u => .ok u, fun _ => some [.lowerBound 1 1]⟩, none⟩ :
            ReifiedPropagator Unit).propagate (.equal 3 1) ⟨none, none, ()⟩
          = .error (.conflict (c ++ [.equal 3 1]))) :=
  spec_C8_reified_propagate_amended
    ⟨⟨fun u => .ok u, fun _ => some [.lowerBound 1 1]⟩, none⟩
    (.equal 3 1) ⟨none, none, ()⟩ rfl

end Pumpkin
